import Mathlib

/-!
Shallow embedding of the Vitess resharder (go/vt/vtctl/workflow resharder code,
found in the repository subset under src/) together with proofs of the spec's
claims about it.

The embedding translates the Go code structurally:
  * pure Go functions become Lean functions;
  * the topology store, the tablet CDC catalogs and the external collaborators
    (`ValidateForReshard`, `IsInternalOperationTableName`) are explicit inputs;
  * the mutex-serialised fan-out of `readRefStreams` is modelled as one
    serialisation (a left-to-right fold over the source shards); the spec
    states the contents of the resulting map are order-independent;
  * fallible Go code returning `error` becomes `Except String`.
-/

/-! ### Byte strings and key ranges -/

/-- Lexicographic comparison of byte strings, as `bytes.Compare(a, b) < 0`
in Go: a strict prefix is smaller. -/
def bytesLt : List Nat → List Nat → Bool
  | [], [] => false
  | [], _ :: _ => true
  | _ :: _, [] => false
  | a :: as, b :: bs => a < b || (a == b && bytesLt as bs)

/-- Modelled from the spec: a key range is a half-open byte interval
`[Start, End)`; an empty `End` means the interval extends to the end of the
space, and the all-empty range means the entire space.  (The Go type is
`topodatapb.KeyRange`; the `key` package helpers are not part of the source
subset.) -/
structure KeyRange where
  Start : List Nat
  End : List Nat
deriving DecidableEq

/-- Modelled from the spec: two key ranges intersect iff they share at least
one byte position (`key.KeyRangeIntersect`; the `key` package is not part of
the source subset).  With `End = []` read as infinity, `[s1, e1)` and
`[s2, e2)` intersect iff `s1 < e2` and `s2 < e1`. -/
def keyRangeIntersect (a b : KeyRange) : Bool :=
  (b.End.isEmpty || bytesLt a.Start b.End) && (a.End.isEmpty || bytesLt b.Start a.End)

/-- Modelled from the spec: the textual key-range literal used as the filter
of the catch-all rule (`key.KeyRangeString`; not part of the source subset).
Only its value as an opaque literal matters to the claims. -/
def keyRangeString (kr : KeyRange) : String :=
  String.intercalate "," (kr.Start.map toString) ++ "-" ++
    String.intercalate "," (kr.End.map toString)

/-! ### Binlog sources, filters and the vschema -/

/-- A single filter rule of a CDC stream (`binlogdatapb.Rule`). -/
structure Rule where
  Match : String
  Filter : String
deriving DecidableEq

/-- An ordered rule list (`binlogdatapb.Filter`). -/
structure BlsFilter where
  Rules : List Rule
deriving DecidableEq

/-- A CDC stream source descriptor (`binlogdatapb.BinlogSource`).  `OnDdl` is
the numeric value of the `binlogdata.OnDDLAction` enum. -/
structure BinlogSource where
  Keyspace : String
  Shard : String
  SourceFilter : BlsFilter
  StopAfterCopy : Bool
  OnDdl : Nat
deriving DecidableEq

/-- Modelled from the spec: Go renders the offending `BinlogSource` with
`fmt` `%v` in the mix error; the exact textual form is unspecified, so the
embedding uses a simple structural rendering. -/
def blsString (bls : BinlogSource) : String :=
  bls.Keyspace ++ "/" ++ bls.Shard

/-- A vschema table descriptor (`vindexes.Table`); only its `Type` matters
here. -/
structure VTable where
  typ : String
deriving DecidableEq

/-- The vschema table type marking reference tables
(`vindexes.TypeReference`). -/
def TypeReference : String := "reference"

/-- A keyspace vschema (`vschemapb.Keyspace`): its table map, embedded as an
association list (Go map iteration order is unspecified; the list order
stands in for one iteration order). -/
structure VSchema where
  Tables : List (String × VTable)
deriving DecidableEq

/-- Go map lookup `rs.vschema.Tables[rule.Match]`. -/
def lookupTable (vschema : VSchema) (name : String) : Option VTable :=
  (vschema.Tables.find? (fun p => p.1 == name)).map Prod.snd

/-! ### Stream classification (`blsIsReference` / `identifyRuleType`) -/

inductive StreamType
  | unknown
  | sharded
  | reference
deriving DecidableEq

def unknownTableError (name : String) : String :=
  "table " ++ name ++ " not found in vschema"

def mixError (bls : BinlogSource) : String :=
  "cannot reshard streams with a mix of reference and sharded tables: " ++ blsString bls

/-- `(*resharder).identifyRuleType`.  `internal` is the predicate
`schema.IsInternalOperationTableName`, which is not part of the source
subset; the spec describes it only as recognising internal-operation table
names, so it is kept abstract as a parameter. -/
def identifyRuleType (internal : String → Bool) (vschema : VSchema) (rule : Rule) :
    Except String StreamType :=
  match lookupTable vschema rule.Match with
  | none =>
    if internal rule.Match then Except.ok StreamType.sharded
    else Except.error (unknownTableError rule.Match)
  | some vtable =>
    if vtable.typ == TypeReference then Except.ok StreamType.reference
    else Except.ok StreamType.sharded

/-- The rule scan of `(*resharder).blsIsReference`: fold the rules left to
right carrying the adopted stream type, failing on a contradiction. -/
def blsIsReferenceLoop (internal : String → Bool) (vschema : VSchema) (bls : BinlogSource) :
    List Rule → StreamType → Except String StreamType
  | [], streamType => Except.ok streamType
  | rule :: rest, streamType =>
    match identifyRuleType internal vschema rule with
    | Except.error e => Except.error e
    | Except.ok StreamType.sharded =>
      if streamType == StreamType.reference then Except.error (mixError bls)
      else blsIsReferenceLoop internal vschema bls rest StreamType.sharded
    | Except.ok StreamType.reference =>
      if streamType == StreamType.sharded then Except.error (mixError bls)
      else blsIsReferenceLoop internal vschema bls rest StreamType.reference
    | Except.ok StreamType.unknown => blsIsReferenceLoop internal vschema bls rest streamType

/-- `(*resharder).blsIsReference`: classify a whole `BinlogSource`; `ok true`
means the stream is a reference stream. -/
def blsIsReference (internal : String → Bool) (vschema : VSchema) (bls : BinlogSource) :
    Except String Bool :=
  match blsIsReferenceLoop internal vschema bls bls.SourceFilter.Rules StreamType.unknown with
  | Except.error e => Except.error e
  | Except.ok streamType => Except.ok (streamType == StreamType.reference)

/-! ### Topology data -/

/-- `topo.ShardInfo`, restricted to the fields the resharder reads. -/
structure ShardInfo where
  Keyspace : String
  ShardName : String
  ShardKeyRange : KeyRange
  IsPrimaryServing : Bool
  PrimaryAlias : String
deriving DecidableEq

/-- `topo.TabletInfo`, restricted to the fields the resharder reads. -/
structure TabletInfo where
  Alias : String
  DbName : String
deriving DecidableEq

/-- A row of the `_vt.vreplication` CDC catalog as read by `readRefStreams`
(columns `workflow, source, cell, tablet_types` plus the `message` column the
query filters on).  The `source` column is stored here already parsed into a
`BinlogSource`; the textual-protobuf round trip is an external collaborator. -/
structure VRow where
  workflow : String
  bls : BinlogSource
  cell : String
  tabletTypes : String
  message : String
deriving DecidableEq

/-- A reference stream recorded in `rs.refStreams` (`type refStream`). -/
structure RefStream where
  workflow : String
  bls : BinlogSource
  cell : String
  tabletTypes : String
deriving DecidableEq

/-- `refKey = fmt.Sprintf("%s:%s:%s", workflow, bls.Keyspace, bls.Shard)`. -/
def refKeyOf (workflow : String) (bls : BinlogSource) : String :=
  workflow ++ ":" ++ bls.Keyspace ++ ":" ++ bls.Shard

/-- The `rs.refStreams` Go map, embedded as an association list with unique
keys; list order stands in for one (unspecified) Go map iteration order. -/
abbrev RefMap := List (String × RefStream)

/-- Go map insertion `rs.refStreams[refKey] = v`: overwrite an existing entry
in place, otherwise append. -/
def mapInsert (m : RefMap) (k : String) (v : RefStream) : RefMap :=
  if m.any (fun p => p.1 == k) then
    m.map (fun p => if p.1 == k then (k, v) else p)
  else m ++ [(k, v)]

/-! ### Small self-contained list helpers

These mirror the Go `map[string]bool` used as a comparison set in
`readRefStreams`: membership test and key deletion. -/

/-- Membership test in the comparison set (`ref[refKey]`). -/
def hasKey : List String → String → Bool
  | [], _ => false
  | k :: ks, x => k == x || hasKey ks x

/-- Deletion from the comparison set (`delete(ref, refKey)`); removes the
first occurrence, which is the only one since the set has unique keys. -/
def removeKey : List String → String → List String
  | [], _ => []
  | k :: ks, x => if k == x then ks else k :: removeKey ks x

/-! ### `readRefStreams` -/

def namedWorkflowError (keyspace shardName : String) : String :=
  "VReplication streams must have named workflows for migration: shard: " ++
    keyspace ++ ":" ++ shardName

def mismatchError (workflow : String) : String :=
  "streams are mismatched across source shards for workflow: " ++ workflow

def mismatchSetError (ref : List String) : String :=
  "streams are mismatched across source shards: " ++ String.intercalate "," ref

/-- The per-row loop in the `readRefStreams` fan-out closure.  `mustCreate`
says whether this source is the one that defined the map.  Returns the
updated map, the remaining comparison set and the error, if any; as in Go,
map updates made before an error persist. -/
def processRows (internal : String → Bool) (vschema : VSchema) (src : ShardInfo)
    (mustCreate : Bool) :
    List VRow → RefMap → List String → RefMap × List String × Option String
  | [], streams, ref => (streams, ref, none)
  | row :: rest, streams, ref =>
    if row.workflow = "" then
      (streams, ref, some (namedWorkflowError src.Keyspace src.ShardName))
    else
      match blsIsReference internal vschema row.bls with
      | Except.error e => (streams, ref, some ("blsIsReference: " ++ e))
      | Except.ok false => processRows internal vschema src mustCreate rest streams ref
      | Except.ok true =>
        let refKey := refKeyOf row.workflow row.bls
        if mustCreate then
          processRows internal vschema src mustCreate rest
            (mapInsert streams refKey
              { workflow := row.workflow, bls := row.bls,
                cell := row.cell, tabletTypes := row.tabletTypes }) ref
        else if hasKey ref refKey then
          processRows internal vschema src mustCreate rest streams (removeKey ref refKey)
        else
          (streams, ref, some (mismatchError row.workflow))

/-- One source's turn under the mutex in `readRefStreams`: decide
`mustCreate` from whether the map exists, snapshot the keys for comparison,
run the row loop, and perform the final `len(ref) != 0` check. -/
def processSource (internal : String → Bool) (vschema : VSchema) (src : ShardInfo)
    (rows : List VRow) (refStreams : Option RefMap) : RefMap × Option String :=
  let mustCreate := refStreams.isNone
  let streams0 := refStreams.getD []
  let ref0 : List String :=
    match refStreams with
    | none => []
    | some m => m.map Prod.fst
  match processRows internal vschema src mustCreate rows streams0 ref0 with
  | (streams, _, some e) => (streams, some e)
  | (streams, ref, none) =>
    if ref.length ≠ 0 then (streams, some (mismatchSetError ref)) else (streams, none)

/-- Look a tablet up in a primaries map (`rs.sourcePrimaries[...]` /
`rs.targetPrimaries[...]`); a missing key yields the Go zero value. -/
def findTablet (m : List (String × TabletInfo)) (k : String) : TabletInfo :=
  ((m.find? (fun p => p.1 == k)).map Prod.snd).getD { Alias := "", DbName := "" }

/-- The rows `readRefStreams` reads from one source: the catalog of its
primary's db restricted by the SQL clause `message != 'FROZEN'`. -/
def sourceRows (catalog : String → List VRow) (db : String) : List VRow :=
  (catalog db).filter (fun r => r.message ≠ "FROZEN")

/-- The serialised fan-out of `readRefStreams`: visit the sources in order,
thread the shared map through, and collect every per-source error
(the executor never short-circuits). -/
def readRefStreamsLoop (internal : String → Bool) (vschema : VSchema)
    (catalog : String → List VRow) (primaries : List (String × TabletInfo)) :
    List ShardInfo → Option RefMap → Option RefMap × List String
  | [], st => (st, [])
  | src :: rest, st =>
    let db := (findTablet primaries src.ShardName).DbName
    let rows := sourceRows catalog db
    let step := processSource internal vschema src rows st
    let next := readRefStreamsLoop internal vschema catalog primaries rest (some step.1)
    (next.1, (match step.2 with | some e => [e] | none => []) ++ next.2)

/-- Modelled from the spec: `vterrors.Aggregate` (not part of the source
subset) joins the collected errors into one; the embedding joins their
messages with a newline. -/
def aggregate : List String → String
  | [] => ""
  | [e] => e
  | e :: rest => e ++ "\n" ++ aggregate rest

/-- `(*resharder).readRefStreams`: the final map (`none` only when there were
no sources) and the aggregated outcome. -/
def readRefStreams (internal : String → Bool) (vschema : VSchema)
    (catalog : String → List VRow) (primaries : List (String × TabletInfo))
    (sources : List ShardInfo) : Option RefMap × Except String Unit :=
  let r := readRefStreamsLoop internal vschema catalog primaries sources none
  (r.1, if r.2.isEmpty then Except.ok () else Except.error (aggregate r.2))

/-! ### The fan-out executor -/

/-- The errors recorded by `forAll`'s `AllErrorRecorder`: one per failing
shard, every task runs to completion. -/
def forAllErrors (shards : List ShardInfo) (f : ShardInfo → Except String Unit) :
    List String :=
  shards.filterMap (fun s =>
    match f s with
    | Except.error e => some e
    | Except.ok _ => none)

/-- `(*resharder).forAll`: `nil` iff every task succeeded, otherwise the
aggregate of every recorded error. -/
def forAll (shards : List ShardInfo) (f : ShardInfo → Except String Unit) :
    Except String Unit :=
  match forAllErrors shards f with
  | [] => Except.ok ()
  | errs => Except.error (aggregate errs)

/-! ### SQL text -/

/-- A single-quote character, for building SQL literals. -/
def squote : String := String.singleton (Char.ofNat 39)

/-- Modelled from the spec: the SQL string quoter `encodeString` (not part of
the source subset) embeds a db name as a quoted SQL literal. -/
def encodeString (s : String) : String := squote ++ s ++ squote

/-- The target existence probe issued by `validateTargets`. -/
def probeQuery (dbName : String) : String :=
  "select 1 from _vt.vreplication where db_name=" ++ encodeString dbName

/-- The source enumeration query issued by `readRefStreams`. -/
def readQuery (dbName : String) : String :=
  "select workflow, source, cell, tablet_types from _vt.vreplication where db_name=" ++
    encodeString dbName ++ " and message != " ++ squote ++ "FROZEN" ++ squote

/-- Character-list prefix test (self-contained). -/
def listPrefix : List Char → List Char → Bool
  | [], _ => true
  | _ :: _, [] => false
  | a :: as, b :: bs => a == b && listPrefix as bs

/-- `p` is a textual prefix of `s`. -/
def strHasPrefix (p s : String) : Bool := listPrefix p.data s.data

/-- A query is a read: its text starts with `select`. -/
def isSelectQuery (q : String) : Bool := strHasPrefix "select" q

/-! ### The resharder state and the build phase -/

/-- The `resharder` struct, restricted to the fields the embedded phases
read.  `sourcePrimaries`/`targetPrimaries` are Go maps embedded as
association lists. -/
structure Resharder where
  keyspace : String
  workflow : String
  sourceShards : List ShardInfo
  sourcePrimaries : List (String × TabletInfo)
  targetShards : List ShardInfo
  targetPrimaries : List (String × TabletInfo)
  vschema : VSchema
  refStreams : RefMap
  cell : String
  tabletTypes : String
  stopAfterCopy : Bool
  onDDL : String
  deferSecondaryKeys : Bool
deriving DecidableEq

/-- The external world the resharder talks to: the topology store, the
per-db CDC catalogs, the internal-table-name predicate and the external
`ValidateForReshard` collaborator. -/
structure TopoEnv where
  getShard : String → String → Option ShardInfo
  getTablet : String → Option TabletInfo
  getVSchema : String → Option VSchema
  catalog : String → List VRow
  internal : String → Bool
  validateForReshard : List ShardInfo → List ShardInfo → Except String Unit

def existingStreamsError : String :=
  "some streams already exist in the target shards, please clean them up and retry the command"

/-- `(*resharder).validateTargets`: fan out over the targets and probe each
primary's CDC catalog; any row means the target is not empty. -/
def validateTargets (rs : Resharder) (catalog : String → List VRow) : Except String Unit :=
  forAll rs.targetShards (fun target =>
    let targetPrimary := findTablet rs.targetPrimaries target.ShardName
    if (catalog targetPrimary.DbName).length ≠ 0 then Except.error existingStreamsError
    else Except.ok ())

/-- The probes `validateTargets` issues (every target is probed; the fan-out
never short-circuits). -/
def validateTargetsQueries (rs : Resharder) : List String :=
  rs.targetShards.map (fun target =>
    probeQuery (findTablet rs.targetPrimaries target.ShardName).DbName)

/-- The reads `readRefStreams` issues (every source is queried). -/
def readRefStreamsQueries (rs : Resharder) : List String :=
  rs.sourceShards.map (fun src =>
    readQuery (findTablet rs.sourcePrimaries src.ShardName).DbName)

/-- One of the two shard loops of `buildResharder`: resolve each shard name,
check the serving precondition (`isTarget` flips its sense), and fetch the
primary tablet.  Returns the shard infos and the primaries map. -/
def loadShards (env : TopoEnv) (keyspace : String) (names : List String)
    (isTarget : Bool) : Except String (List ShardInfo × List (String × TabletInfo)) :=
  match names with
  | [] => Except.ok ([], [])
  | shard :: rest =>
    match env.getShard keyspace shard with
    | none => Except.error ("GetShard(" ++ shard ++ ") failed")
    | some si =>
      if si.IsPrimaryServing = isTarget then
        Except.error (if isTarget then "target shard " ++ shard ++ " is in serving state"
          else "source shard " ++ shard ++ " is not in serving state")
      else
        match env.getTablet si.PrimaryAlias with
        | none => Except.error ("GetTablet(" ++ si.PrimaryAlias ++ ") failed")
        | some primary =>
          match loadShards env keyspace rest isTarget with
          | Except.error e => Except.error e
          | Except.ok (sis, prims) =>
            Except.ok (si :: sis, (si.ShardName, primary) :: prims)

/-- `(*Server).buildResharder`, phases 1-3: resolve sources and targets,
check serving preconditions, run the external validator, probe the targets,
fetch the vschema, and read the reference streams.  The second component is
the trace of `VReplicationExec` queries issued along the way. -/
def buildResharder (env : TopoEnv) (keyspace workflow : String)
    (sources targets : List String) (cell tabletTypes : String) :
    Except String Resharder × List String :=
  match loadShards env keyspace sources false with
  | Except.error e => (Except.error e, [])
  | Except.ok (sourceShards, sourcePrimaries) =>
    match loadShards env keyspace targets true with
    | Except.error e => (Except.error e, [])
    | Except.ok (targetShards, targetPrimaries) =>
      match env.validateForReshard sourceShards targetShards with
      | Except.error e => (Except.error ("ValidateForReshard: " ++ e), [])
      | Except.ok _ =>
        let rs0 : Resharder :=
          { keyspace := keyspace, workflow := workflow,
            sourceShards := sourceShards, sourcePrimaries := sourcePrimaries,
            targetShards := targetShards, targetPrimaries := targetPrimaries,
            vschema := { Tables := [] }, refStreams := [],
            cell := cell, tabletTypes := tabletTypes,
            stopAfterCopy := false, onDDL := "", deferSecondaryKeys := false }
        let vtQueries := validateTargetsQueries rs0
        match validateTargets rs0 env.catalog with
        | Except.error e => (Except.error ("validateTargets: " ++ e), vtQueries)
        | Except.ok _ =>
          match env.getVSchema keyspace with
          | none => (Except.error "GetVSchema: lookup failed", vtQueries)
          | some vschema =>
            let rs1 := { rs0 with vschema := vschema }
            let rrQueries := readRefStreamsQueries rs1
            let r := readRefStreams env.internal vschema env.catalog
              rs1.sourcePrimaries rs1.sourceShards
            match r.2 with
            | Except.error e =>
              (Except.error ("readRefStreams: " ++ e), vtQueries ++ rrQueries)
            | Except.ok _ =>
              (Except.ok { rs1 with refStreams := r.1.getD [] }, vtQueries ++ rrQueries)

/-! ### `createStreams` -/

/-- `binlogdatapb.OnDDLAction_value`: the proto name-to-value map; a name
not in the map yields the zero value, as in Go. -/
def OnDDLAction_value (s : String) : Nat :=
  if s = "IGNORE" then 0
  else if s = "STOP" then 1
  else if s = "EXEC" then 2
  else if s = "EXEC_IGNORE" then 3
  else 0

def VReplicationWorkflowType_Reshard : Nat := 4
def VReplicationWorkflowSubType_None : Nat := 0

/-- One row accumulated by the `InsertGenerator` (`ig.AddRow`); `pos` is
always empty at creation and the state is `Stopped` for every row, so neither
distinguishes rows. -/
structure InsertRow where
  workflow : String
  bls : BinlogSource
  pos : String
  cell : String
  tabletTypes : String
  workflowType : Nat
  workflowSubType : Nat
  deferSecondaryKeys : Bool
deriving DecidableEq

/-- The `excludeRules` precomputation of `createStreams`: one exclude rule
per reference table of the vschema, in table-map iteration order. -/
def excludeRulesOf (vschema : VSchema) : List Rule :=
  vschema.Tables.filterMap (fun p =>
    if p.2.typ == TypeReference then some { Match := p.1, Filter := "exclude" }
    else none)

/-- The `BinlogSource` of a sharded stream created for `target` from
`source`. -/
def shardedBls (rs : Resharder) (target source : ShardInfo)
    (copyExcludeRules : List Rule) : BinlogSource :=
  { Keyspace := rs.keyspace
    Shard := source.ShardName
    SourceFilter :=
      { Rules := copyExcludeRules ++
          [{ Match := "/.*", Filter := keyRangeString target.ShardKeyRange }] }
    StopAfterCopy := rs.stopAfterCopy
    OnDdl := OnDDLAction_value rs.onDDL }

/-- The sharded-stream rows `createStreams` adds for one target: one row per
source shard whose key range intersects the target's. -/
def shardedRowsForTarget (rs : Resharder) (target : ShardInfo) : List InsertRow :=
  let copyExcludeRules := excludeRulesOf rs.vschema
  (rs.sourceShards.filter
      (fun source => keyRangeIntersect target.ShardKeyRange source.ShardKeyRange)).map
    (fun source =>
      { workflow := rs.workflow
        bls := shardedBls rs target source copyExcludeRules
        pos := ""
        cell := rs.cell
        tabletTypes := rs.tabletTypes
        workflowType := VReplicationWorkflowType_Reshard
        workflowSubType := VReplicationWorkflowSubType_None
        deferSecondaryKeys := rs.deferSecondaryKeys })

/-- The reference-stream rows `createStreams` adds for every target: one row
per entry of `rs.refStreams`, carrying the entry's own workflow name,
`BinlogSource`, cell and tablet types. -/
def refRowsForTarget (rs : Resharder) : List InsertRow :=
  rs.refStreams.map (fun p =>
    { workflow := p.2.workflow
      bls := p.2.bls
      pos := ""
      cell := p.2.cell
      tabletTypes := p.2.tabletTypes
      workflowType := VReplicationWorkflowType_Reshard
      workflowSubType := VReplicationWorkflowSubType_None
      deferSecondaryKeys := rs.deferSecondaryKeys })

/-- All rows of one target's insert, in generator order: sharded rows first,
then the reference rows. -/
def rowsForTarget (rs : Resharder) (target : ShardInfo) : List InsertRow :=
  shardedRowsForTarget rs target ++ refRowsForTarget rs

/-- `(*resharder).createStreams`: the per-target inserts the fan-out
executes, as target-name/row-list pairs (the single RPC per target carries
exactly these rows). -/
def createStreams (rs : Resharder) : List (String × List InsertRow) :=
  rs.targetShards.map (fun target => (target.ShardName, rowsForTarget rs target))

/-! ### Derived views of catalog rows

These are specification-side views used to state properties of
`readRefStreams`; they are computed directly from the embedded code's
classifier. -/

/-- A row is clean when the `readRefStreams` loop can process it without a
row-local failure: a named workflow and a classifiable `BinlogSource`. -/
def rowClean (internal : String → Bool) (vschema : VSchema) (row : VRow) : Bool :=
  (row.workflow != "") &&
    (match blsIsReference internal vschema row.bls with
     | Except.ok _ => true
     | Except.error _ => false)

def rowsClean (internal : String → Bool) (vschema : VSchema) (rows : List VRow) : Bool :=
  rows.all (rowClean internal vschema)

/-- The `refKey` of a row, when the row's stream classifies as reference. -/
def rowRefKey (internal : String → Bool) (vschema : VSchema) (row : VRow) : Option String :=
  match blsIsReference internal vschema row.bls with
  | Except.ok true => some (refKeyOf row.workflow row.bls)
  | _ => none

/-- The reference keys a source reports, in row order. -/
def refKeys (internal : String → Bool) (vschema : VSchema) (rows : List VRow) : List String :=
  rows.filterMap (rowRefKey internal vschema)

/-- The map entry a reference row contributes. -/
def rowRefEntry (internal : String → Bool) (vschema : VSchema) (row : VRow) :
    Option (String × RefStream) :=
  match blsIsReference internal vschema row.bls with
  | Except.ok true =>
    some (refKeyOf row.workflow row.bls,
      { workflow := row.workflow, bls := row.bls,
        cell := row.cell, tabletTypes := row.tabletTypes })
  | _ => none

/-- The reference-stream entries a source reports, in row order. -/
def refEntries (internal : String → Bool) (vschema : VSchema) (rows : List VRow) :
    RefMap :=
  rows.filterMap (rowRefEntry internal vschema)

/-- Fold a list of entries into a map by repeated Go-map insertion. -/
def insertAll (m : RefMap) (es : List (String × RefStream)) : RefMap :=
  es.foldl (fun acc e => mapInsert acc e.1 e.2) m

/-- The common prefix of both mismatch error messages of `readRefStreams`. -/
def mismatchPrefix : String := "streams are mismatched across source shards"

/-! ### A small concrete world, used to instantiate the claims -/

def cInternal : String → Bool := fun name => name == "_vt_hld_table"

def cCountry : VTable := { typ := "reference" }
def cCust : VTable := { typ := "" }
def cVSchema : VSchema := { Tables := [("country", cCountry), ("cust", cCust)] }

def cBlsRef : BinlogSource :=
  { Keyspace := "ks", Shard := "-",
    SourceFilter := { Rules := [{ Match := "country", Filter := "" }] },
    StopAfterCopy := false, OnDdl := 0 }

def cBlsSh : BinlogSource :=
  { Keyspace := "ks", Shard := "-",
    SourceFilter := { Rules := [{ Match := "cust", Filter := "" }] },
    StopAfterCopy := false, OnDdl := 0 }

def cBlsMix : BinlogSource :=
  { Keyspace := "ks", Shard := "-",
    SourceFilter := { Rules := [{ Match := "country", Filter := "" },
                                { Match := "cust", Filter := "" }] },
    StopAfterCopy := false, OnDdl := 0 }

def cRowRef : VRow :=
  { workflow := "wf1", bls := cBlsRef, cell := "zone1", tabletTypes := "primary",
    message := "" }

def cKrAll : KeyRange := { Start := [], End := [] }
def cKrLeft : KeyRange := { Start := [], End := [128] }
def cKrRight : KeyRange := { Start := [128], End := [] }

def cSrc : ShardInfo :=
  { Keyspace := "ks", ShardName := "-", ShardKeyRange := cKrAll,
    IsPrimaryServing := true, PrimaryAlias := "s1" }
def cSrcBad : ShardInfo :=
  { Keyspace := "ks", ShardName := "-", ShardKeyRange := cKrAll,
    IsPrimaryServing := false, PrimaryAlias := "s1" }
def cSrcX : ShardInfo :=
  { Keyspace := "ks", ShardName := "x", ShardKeyRange := cKrAll,
    IsPrimaryServing := true, PrimaryAlias := "sx" }
def cSrcD : ShardInfo :=
  { Keyspace := "ks", ShardName := "d", ShardKeyRange := cKrAll,
    IsPrimaryServing := true, PrimaryAlias := "sd" }
def cTgtLeft : ShardInfo :=
  { Keyspace := "ks", ShardName := "-80", ShardKeyRange := cKrLeft,
    IsPrimaryServing := false, PrimaryAlias := "t1" }
def cTgtRight : ShardInfo :=
  { Keyspace := "ks", ShardName := "80-", ShardKeyRange := cKrRight,
    IsPrimaryServing := false, PrimaryAlias := "t2" }

def cTabS1 : TabletInfo := { Alias := "s1", DbName := "dbs1" }
def cTabSX : TabletInfo := { Alias := "sx", DbName := "dbs2" }
def cTabSD : TabletInfo := { Alias := "sd", DbName := "dbs3" }
def cTabT1 : TabletInfo := { Alias := "t1", DbName := "dbt1" }
def cTabT2 : TabletInfo := { Alias := "t2", DbName := "dbt2" }

/-- Source-side catalogs: `dbs1` holds one reference stream, `dbs3` holds the
same stream twice, `dbs2` and the target dbs are empty. -/
def cCatalog : String → List VRow := fun db =>
  if db = "dbs1" then [cRowRef]
  else if db = "dbs3" then [cRowRef, cRowRef]
  else []

def cPrims : List (String × TabletInfo) :=
  [("-", cTabS1), ("x", cTabSX), ("d", cTabSD)]

def cEnv : TopoEnv :=
  { getShard := fun ks sh =>
      if ks = "ks" && sh = "-" then some cSrc
      else if ks = "ks" && sh = "-80" then some cTgtLeft
      else if ks = "ks" && sh = "80-" then some cTgtRight
      else none
    getTablet := fun a =>
      if a = "s1" then some cTabS1
      else if a = "t1" then some cTabT1
      else if a = "t2" then some cTabT2
      else none
    getVSchema := fun ks => if ks = "ks" then some cVSchema else none
    catalog := cCatalog
    internal := cInternal
    validateForReshard := fun _ _ => Except.ok () }

/-- Like `cEnv` but the single source shard is not serving. -/
def cEnvBad : TopoEnv :=
  { cEnv with getShard := fun ks sh =>
      if ks = "ks" && sh = "-" then some cSrcBad
      else if ks = "ks" && sh = "-80" then some cTgtLeft
      else if ks = "ks" && sh = "80-" then some cTgtRight
      else none }

def cRs : Resharder :=
  { keyspace := "ks", workflow := "wf",
    sourceShards := [cSrc], sourcePrimaries := [("-", cTabS1)],
    targetShards := [cTgtLeft, cTgtRight],
    targetPrimaries := [("-80", cTabT1), ("80-", cTabT2)],
    vschema := cVSchema,
    refStreams := refEntries cInternal cVSchema [cRowRef],
    cell := "zone1", tabletTypes := "primary",
    stopAfterCopy := false, onDDL := "STOP", deferSecondaryKeys := false }

/-! ### Helper lemmas: strings -/

theorem listPrefix_refl (l : List Char) : listPrefix l l = true := by
  induction l with
  | nil => rfl
  | cons a as ih => simp [listPrefix, ih]

theorem listPrefix_append (p : List Char) :
    ∀ s t : List Char, listPrefix p s = true → listPrefix p (s ++ t) = true := by
  induction p with
  | nil => intro s t _; rfl
  | cons a as ih =>
    intro s t h
    cases s with
    | nil => simp [listPrefix] at h
    | cons b bs =>
      simp only [listPrefix, Bool.and_eq_true] at h
      simp only [List.cons_append, listPrefix, Bool.and_eq_true]
      exact ⟨h.1, ih bs t h.2⟩

theorem str_data_append (s t : String) : (s ++ t).data = s.data ++ t.data := by
  cases s; cases t; rfl

theorem strHasPrefix_append (p s t : String) (h : strHasPrefix p s = true) :
    strHasPrefix p (s ++ t) = true := by
  unfold strHasPrefix at h ⊢
  rw [str_data_append]
  exact listPrefix_append _ _ _ h

theorem strHasPrefix_self (p : String) : strHasPrefix p p = true :=
  listPrefix_refl _

theorem aggregate_prefix_head (e : String) (rest : List String) :
    strHasPrefix e (aggregate (e :: rest)) = true := by
  cases rest with
  | nil => exact strHasPrefix_self e
  | cons r rs =>
    show strHasPrefix e (e ++ "\n" ++ aggregate (r :: rs)) = true
    exact strHasPrefix_append _ _ _ (strHasPrefix_append _ _ _ (strHasPrefix_self e))

/-! ### Helper lemmas: the comparison set -/

theorem hasKey_iff_mem (ks : List String) (x : String) : hasKey ks x = true ↔ x ∈ ks := by
  induction ks with
  | nil => simp [hasKey]
  | cons k ks ih =>
    simp only [hasKey, Bool.or_eq_true, beq_iff_eq, ih, List.mem_cons]
    constructor
    · rintro (h | h)
      · exact Or.inl h.symm
      · exact Or.inr h
    · rintro (h | h)
      · exact Or.inl h.symm
      · exact Or.inr h

theorem mem_of_mem_removeKey {ks : List String} {x a : String}
    (h : a ∈ removeKey ks x) : a ∈ ks := by
  induction ks with
  | nil => simpa [removeKey] using h
  | cons k ks ih =>
    by_cases hk : k = x
    · rw [removeKey, if_pos (by simp [hk])] at h
      exact List.mem_cons_of_mem _ h
    · rw [removeKey, if_neg (by simp [hk])] at h
      rcases List.mem_cons.mp h with h | h
      · exact h ▸ List.mem_cons_self _ _
      · exact List.mem_cons_of_mem _ (ih h)

theorem removeKey_nodup {ks : List String} {x : String}
    (h : ks.Nodup) : (removeKey ks x).Nodup := by
  induction ks with
  | nil => simpa [removeKey] using h
  | cons k ks ih =>
    rcases List.nodup_cons.mp h with ⟨hk, hks⟩
    by_cases hkx : k = x
    · rw [removeKey, if_pos (by simp [hkx])]
      exact hks
    · rw [removeKey, if_neg (by simp [hkx])]
      exact List.nodup_cons.mpr ⟨fun hmem => hk (mem_of_mem_removeKey hmem), ih hks⟩

theorem mem_removeKey_iff {ks : List String} (h : ks.Nodup) (a x : String) :
    a ∈ removeKey ks x ↔ a ∈ ks ∧ a ≠ x := by
  induction ks with
  | nil => simp [removeKey]
  | cons k ks ih =>
    rcases List.nodup_cons.mp h with ⟨hk, hks⟩
    by_cases hkx : k = x
    · subst hkx
      rw [removeKey, if_pos (by simp)]
      constructor
      · intro ha
        exact ⟨List.mem_cons_of_mem _ ha, fun he => hk (he ▸ ha)⟩
      · rintro ⟨ha, hne⟩
        rcases List.mem_cons.mp ha with rfl | ha
        · exact absurd rfl hne
        · exact ha
    · rw [removeKey, if_neg (by simp [hkx])]
      constructor
      · intro ha
        rcases List.mem_cons.mp ha with rfl | ha
        · exact ⟨List.mem_cons_self _ _, hkx⟩
        · rcases (ih hks).mp ha with ⟨h1, h2⟩
          exact ⟨List.mem_cons_of_mem _ h1, h2⟩
      · rintro ⟨ha, hne⟩
        rcases List.mem_cons.mp ha with rfl | ha
        · exact List.mem_cons_self _ _
        · exact List.mem_cons_of_mem _ ((ih hks).mpr ⟨ha, hne⟩)

/-! ### Helper lemmas: the Go map embedding -/

theorem anyKey_iff (m : RefMap) (k : String) :
    (m.any (fun p => p.1 == k)) = true ↔ k ∈ m.map Prod.fst := by
  simp only [List.any_eq_true, List.mem_map, beq_iff_eq]

theorem mapInsert_of_not_mem (m : RefMap) (k : String) (v : RefStream)
    (h : k ∉ m.map Prod.fst) : mapInsert m k v = m ++ [(k, v)] := by
  unfold mapInsert
  rw [if_neg]
  intro hc
  exact h ((anyKey_iff m k).mp hc)

theorem mapInsert_of_mem (m : RefMap) (k : String) (v : RefStream)
    (h : k ∈ m.map Prod.fst) :
    mapInsert m k v = m.map (fun p => if p.1 == k then (k, v) else p) := by
  unfold mapInsert
  rw [if_pos ((anyKey_iff m k).mpr h)]

theorem keys_mapInsert_of_mem (m : RefMap) (k : String) (v : RefStream)
    (h : k ∈ m.map Prod.fst) :
    (mapInsert m k v).map Prod.fst = m.map Prod.fst := by
  rw [mapInsert_of_mem m k v h, List.map_map]
  apply List.map_congr_left
  intro p _
  by_cases hpk : p.1 = k
  · simp [Function.comp, hpk]
  · simp [Function.comp, hpk]

theorem mem_keys_mapInsert (m : RefMap) (k : String) (v : RefStream) (a : String) :
    a ∈ (mapInsert m k v).map Prod.fst ↔ a = k ∨ a ∈ m.map Prod.fst := by
  by_cases h : k ∈ m.map Prod.fst
  · rw [keys_mapInsert_of_mem m k v h]
    constructor
    · exact Or.inr
    · rintro (rfl | ha)
      · exact h
      · exact ha
  · rw [mapInsert_of_not_mem m k v h]
    simp [List.map_append, List.mem_append, or_comm]

theorem keys_nodup_mapInsert (m : RefMap) (k : String) (v : RefStream)
    (h : (m.map Prod.fst).Nodup) :
    ((mapInsert m k v).map Prod.fst).Nodup := by
  by_cases hk : k ∈ m.map Prod.fst
  · rwa [keys_mapInsert_of_mem m k v hk]
  · rw [mapInsert_of_not_mem m k v hk, List.map_append]
    simp only [List.map_cons, List.map_nil]
    rw [List.nodup_append]
    refine ⟨h, List.nodup_singleton _, ?_⟩
    intro a ha hb
    rcases List.mem_singleton.mp hb with rfl
    exact hk ha

theorem mapInsert_overwrite (m : RefMap) (k : String) (v1 v2 : RefStream) :
    mapInsert (mapInsert m k v1) k v2 = mapInsert m k v2 := by
  have hk1 : k ∈ (mapInsert m k v1).map Prod.fst :=
    (mem_keys_mapInsert m k v1 k).mpr (Or.inl rfl)
  by_cases h : k ∈ m.map Prod.fst
  · rw [mapInsert_of_mem _ k v2 hk1, mapInsert_of_mem m k v1 h,
        mapInsert_of_mem m k v2 h, List.map_map]
    apply List.map_congr_left
    intro p _
    by_cases hpk : p.1 = k
    · simp [Function.comp, hpk]
    · simp [Function.comp, hpk]
  · rw [mapInsert_of_mem _ k v2 hk1, mapInsert_of_not_mem m k v1 h,
        mapInsert_of_not_mem m k v2 h, List.map_append]
    congr 1
    · have hm : m.map (fun p => if p.1 == k then (k, v2) else p) = m.map id := by
        apply List.map_congr_left
        intro p hp
        have hpk : p.1 ≠ k := by
          intro he
          exact h (List.mem_map.mpr ⟨p, hp, he⟩)
        simp [hpk]
      rw [hm, List.map_id]
    · simp

theorem insertAll_nil (m : RefMap) : insertAll m [] = m := rfl

theorem insertAll_cons (m : RefMap) (e : String × RefStream) (es : List (String × RefStream)) :
    insertAll m (e :: es) = insertAll (mapInsert m e.1 e.2) es := rfl

theorem insertAll_fresh (es : List (String × RefStream)) :
    ∀ m : RefMap, (es.map Prod.fst).Nodup →
    (∀ k ∈ es.map Prod.fst, k ∉ m.map Prod.fst) →
    insertAll m es = m ++ es := by
  induction es with
  | nil => intro m _ _; simp [insertAll_nil]
  | cons e es ih =>
    intro m hnd hfresh
    have he : e.1 ∉ m.map Prod.fst := hfresh e.1 (by simp)
    rw [insertAll_cons, mapInsert_of_not_mem _ _ _ he]
    have hnd' : (es.map Prod.fst).Nodup := (List.nodup_cons.mp (by simpa using hnd)).2
    have he' : e.1 ∉ es.map Prod.fst := (List.nodup_cons.mp (by simpa using hnd)).1
    rw [ih (m ++ [(e.1, e.2)]) hnd' ?_]
    · simp
    · intro k hk
      rw [List.map_append]
      simp only [List.mem_append, List.map_cons, List.map_nil, List.mem_singleton]
      rintro (hkm | rfl)
      · exact hfresh k (by simp [hk]) hkm
      · exact he' hk

theorem mem_keys_insertAll (es : List (String × RefStream)) :
    ∀ (m : RefMap) (a : String),
    (a ∈ (insertAll m es).map Prod.fst ↔ a ∈ m.map Prod.fst ∨ a ∈ es.map Prod.fst) := by
  induction es with
  | nil => intro m a; simp [insertAll_nil]
  | cons e es ih =>
    intro m a
    rw [insertAll_cons, ih]
    rw [mem_keys_mapInsert]
    simp only [List.map_cons, List.mem_cons]
    tauto

theorem keys_nodup_insertAll (es : List (String × RefStream)) :
    ∀ m : RefMap, (m.map Prod.fst).Nodup → ((insertAll m es).map Prod.fst).Nodup := by
  induction es with
  | nil => intro m h; simpa [insertAll_nil]
  | cons e es ih =>
    intro m h
    rw [insertAll_cons]
    exact ih _ (keys_nodup_mapInsert _ _ _ h)

/-! ### Helper lemmas: row views -/

theorem refEntries_keys (i : String → Bool) (v : VSchema) (rows : List VRow) :
    (refEntries i v rows).map Prod.fst = refKeys i v rows := by
  induction rows with
  | nil => rfl
  | cons row rest ih =>
    unfold refEntries refKeys at ih ⊢
    rw [List.filterMap_cons, List.filterMap_cons]
    cases h : blsIsReference i v row.bls with
    | error e => simp only [rowRefEntry, rowRefKey, h]; exact ih
    | ok b =>
      cases b with
      | false => simp only [rowRefEntry, rowRefKey, h]; exact ih
      | true =>
        simp only [rowRefEntry, rowRefKey, h, List.map_cons]
        rw [ih]

theorem rowsClean_cons {i : String → Bool} {v : VSchema} {row : VRow} {rest : List VRow} :
    rowsClean i v (row :: rest) = true ↔
      rowClean i v row = true ∧ rowsClean i v rest = true := by
  simp [rowsClean, List.all_cons]

theorem rowClean_spec {i : String → Bool} {v : VSchema} {row : VRow}
    (h : rowClean i v row = true) :
    ¬ row.workflow = "" ∧ ∃ b, blsIsReference i v row.bls = Except.ok b := by
  unfold rowClean at h
  rw [Bool.and_eq_true] at h
  constructor
  · simpa [bne_iff_ne] using h.1
  · cases hb : blsIsReference i v row.bls with
    | error e => rw [hb] at h; simp at h
    | ok b => exact ⟨b, rfl⟩

theorem refKeys_cons_of_sharded {i : String → Bool} {v : VSchema} {row : VRow}
    (rest : List VRow) (h : blsIsReference i v row.bls = Except.ok false) :
    refKeys i v (row :: rest) = refKeys i v rest := by
  unfold refKeys
  rw [List.filterMap_cons]
  simp [rowRefKey, h]

theorem refKeys_cons_of_reference {i : String → Bool} {v : VSchema} {row : VRow}
    (rest : List VRow) (h : blsIsReference i v row.bls = Except.ok true) :
    refKeys i v (row :: rest) = refKeyOf row.workflow row.bls :: refKeys i v rest := by
  unfold refKeys
  rw [List.filterMap_cons]
  simp [rowRefKey, h]

/-! ### Lemmas: the defining source (`mustCreate = true`) -/

theorem processRows_create (i : String → Bool) (v : VSchema) (src : ShardInfo) :
    ∀ (rows : List VRow) (streams : RefMap) (ref : List String),
    rowsClean i v rows = true →
    processRows i v src true rows streams ref =
      (insertAll streams (refEntries i v rows), ref, none) := by
  intro rows
  induction rows with
  | nil =>
    intro streams ref _
    simp [processRows, refEntries, insertAll_nil]
  | cons row rest ih =>
    intro streams ref hclean
    rcases rowsClean_cons.mp hclean with ⟨hrow, hrest⟩
    rcases rowClean_spec hrow with ⟨hwf, b, hb⟩
    cases b with
    | false =>
      have step : processRows i v src true (row :: rest) streams ref =
          processRows i v src true rest streams ref := by
        simp [processRows, hwf, hb]
      rw [step, ih streams ref hrest]
      unfold refEntries
      rw [List.filterMap_cons]
      simp [rowRefEntry, hb]
    | true =>
      have step : processRows i v src true (row :: rest) streams ref =
          processRows i v src true rest
            (mapInsert streams (refKeyOf row.workflow row.bls)
              { workflow := row.workflow, bls := row.bls,
                cell := row.cell, tabletTypes := row.tabletTypes }) ref := by
        simp [processRows, hwf, hb]
      rw [step, ih _ ref hrest]
      unfold refEntries
      rw [List.filterMap_cons]
      simp [rowRefEntry, hb, insertAll_cons]

/-! ### Lemmas: a validating source (`mustCreate = false`) -/

theorem processRows_validate_fst (i : String → Bool) (v : VSchema) (src : ShardInfo) :
    ∀ (rows : List VRow) (streams : RefMap) (ref : List String),
    (processRows i v src false rows streams ref).1 = streams := by
  intro rows
  induction rows with
  | nil => intro streams ref; rfl
  | cons row rest ih =>
    intro streams ref
    by_cases hwf : row.workflow = ""
    · simp [processRows, hwf]
    · cases hb : blsIsReference i v row.bls with
      | error e => simp [processRows, hwf, hb]
      | ok b =>
        cases b with
        | false => simp [processRows, hwf, hb]; exact ih streams ref
        | true =>
          by_cases hhk : hasKey ref (refKeyOf row.workflow row.bls) = true
          · simp [processRows, hwf, hb, hhk]; exact ih streams _
          · simp [processRows, hwf, hb, hhk]

theorem processRows_validate_mismatch (i : String → Bool) (v : VSchema) (src : ShardInfo) :
    ∀ (rows : List VRow) (streams : RefMap) (ref : List String),
    rowsClean i v rows = true →
    ∀ e, (processRows i v src false rows streams ref).2.2 = some e →
    strHasPrefix mismatchPrefix e = true := by
  intro rows
  induction rows with
  | nil => intro streams ref _ e he; simp [processRows] at he
  | cons row rest ih =>
    intro streams ref hclean e he
    rcases rowsClean_cons.mp hclean with ⟨hrow, hrest⟩
    rcases rowClean_spec hrow with ⟨hwf, b, hb⟩
    cases b with
    | false =>
      rw [show processRows i v src false (row :: rest) streams ref =
          processRows i v src false rest streams ref by simp [processRows, hwf, hb]] at he
      exact ih streams ref hrest e he
    | true =>
      by_cases hhk : hasKey ref (refKeyOf row.workflow row.bls) = true
      · rw [show processRows i v src false (row :: rest) streams ref =
            processRows i v src false rest streams
              (removeKey ref (refKeyOf row.workflow row.bls)) by
            simp [processRows, hwf, hb, hhk]] at he
        exact ih streams _ hrest e he
      · rw [show processRows i v src false (row :: rest) streams ref =
            (streams, ref, some (mismatchError row.workflow)) by
            simp [processRows, hwf, hb, hhk]] at he
        rcases Option.some.inj he with rfl
        exact strHasPrefix_append _ _ _ (strHasPrefix_self mismatchPrefix)

theorem processRows_validate_ok (i : String → Bool) (v : VSchema) (src : ShardInfo) :
    ∀ (rows : List VRow) (streams : RefMap) (ref : List String),
    rowsClean i v rows = true →
    (refKeys i v rows).Nodup →
    (∀ k ∈ refKeys i v rows, k ∈ ref) →
    ref.Nodup →
    ∃ refF, processRows i v src false rows streams ref = (streams, refF, none)
      ∧ refF.Nodup ∧ (∀ a, a ∈ refF ↔ a ∈ ref ∧ a ∉ refKeys i v rows) := by
  intro rows
  induction rows with
  | nil =>
    intro streams ref _ _ _ hrefnd
    refine ⟨ref, by simp [processRows], hrefnd, ?_⟩
    intro a
    simp [refKeys]
  | cons row rest ih =>
    intro streams ref hclean hnd hsub hrefnd
    rcases rowsClean_cons.mp hclean with ⟨hrow, hrest⟩
    rcases rowClean_spec hrow with ⟨hwf, b, hb⟩
    cases b with
    | false =>
      rw [show processRows i v src false (row :: rest) streams ref =
          processRows i v src false rest streams ref by simp [processRows, hwf, hb]]
      rw [refKeys_cons_of_sharded rest hb] at hnd hsub
      rcases ih streams ref hrest hnd hsub hrefnd with ⟨refF, h1, h2, h3⟩
      refine ⟨refF, h1, h2, ?_⟩
      intro a
      rw [h3 a, refKeys_cons_of_sharded rest hb]
    | true =>
      rw [refKeys_cons_of_reference rest hb] at hnd hsub
      have hk0 : refKeyOf row.workflow row.bls ∈ ref := hsub _ (List.mem_cons_self _ _)
      have hhk : hasKey ref (refKeyOf row.workflow row.bls) = true :=
        (hasKey_iff_mem _ _).mpr hk0
      rw [show processRows i v src false (row :: rest) streams ref =
          processRows i v src false rest streams
            (removeKey ref (refKeyOf row.workflow row.bls)) by
          simp [processRows, hwf, hb, hhk]]
      rcases List.nodup_cons.mp hnd with ⟨hk0nd, hndrest⟩
      have hsub' : ∀ k ∈ refKeys i v rest, k ∈ removeKey ref (refKeyOf row.workflow row.bls) := by
        intro k hk
        refine (mem_removeKey_iff hrefnd k _).mpr ⟨hsub k (List.mem_cons_of_mem _ hk), ?_⟩
        intro he
        exact hk0nd (he ▸ hk)
      rcases ih streams _ hrest hndrest hsub' (removeKey_nodup hrefnd) with ⟨refF, h1, h2, h3⟩
      refine ⟨refF, h1, h2, ?_⟩
      intro a
      rw [h3 a, mem_removeKey_iff hrefnd a _, refKeys_cons_of_reference rest hb]
      simp only [List.mem_cons]
      constructor
      · rintro ⟨⟨ha, hne⟩, hnotin⟩
        exact ⟨ha, by rintro (h | h); exacts [hne h, hnotin h]⟩
      · rintro ⟨ha, hnotin⟩
        exact ⟨⟨ha, fun h => hnotin (Or.inl h)⟩, fun h => hnotin (Or.inr h)⟩

theorem processRows_validate_extra (i : String → Bool) (v : VSchema) (src : ShardInfo) :
    ∀ (rows : List VRow) (streams : RefMap) (ref : List String),
    rowsClean i v rows = true →
    (∃ k ∈ refKeys i v rows, k ∉ ref) →
    ∃ e, (processRows i v src false rows streams ref).2.2 = some e := by
  intro rows
  induction rows with
  | nil =>
    intro streams ref _ hex
    rcases hex with ⟨k, hk, _⟩
    simp [refKeys] at hk
  | cons row rest ih =>
    intro streams ref hclean hex
    rcases rowsClean_cons.mp hclean with ⟨hrow, hrest⟩
    rcases rowClean_spec hrow with ⟨hwf, b, hb⟩
    cases b with
    | false =>
      rw [show processRows i v src false (row :: rest) streams ref =
          processRows i v src false rest streams ref by simp [processRows, hwf, hb]]
      rw [refKeys_cons_of_sharded rest hb] at hex
      exact ih streams ref hrest hex
    | true =>
      by_cases hhk : hasKey ref (refKeyOf row.workflow row.bls) = true
      · rw [show processRows i v src false (row :: rest) streams ref =
            processRows i v src false rest streams
              (removeKey ref (refKeyOf row.workflow row.bls)) by
            simp [processRows, hwf, hb, hhk]]
        rcases hex with ⟨k, hk, hknot⟩
        rw [refKeys_cons_of_reference rest hb] at hk
        rcases List.mem_cons.mp hk with rfl | hk
        · exact absurd ((hasKey_iff_mem _ _).mp hhk) hknot
        · refine ih streams _ hrest ⟨k, hk, ?_⟩
          intro hmem
          exact hknot (mem_of_mem_removeKey hmem)
      · exact ⟨mismatchError row.workflow, by simp [processRows, hwf, hb, hhk]⟩

theorem processRows_validate_dup (i : String → Bool) (v : VSchema) (src : ShardInfo) :
    ∀ (rows : List VRow) (streams : RefMap) (ref : List String),
    rowsClean i v rows = true →
    ref.Nodup →
    ¬ (refKeys i v rows).Nodup →
    ∃ e, (processRows i v src false rows streams ref).2.2 = some e := by
  intro rows
  induction rows with
  | nil =>
    intro streams ref _ _ hdup
    exact absurd (by simp [refKeys]) hdup
  | cons row rest ih =>
    intro streams ref hclean hrefnd hdup
    rcases rowsClean_cons.mp hclean with ⟨hrow, hrest⟩
    rcases rowClean_spec hrow with ⟨hwf, b, hb⟩
    cases b with
    | false =>
      rw [show processRows i v src false (row :: rest) streams ref =
          processRows i v src false rest streams ref by simp [processRows, hwf, hb]]
      rw [refKeys_cons_of_sharded rest hb] at hdup
      exact ih streams ref hrest hrefnd hdup
    | true =>
      by_cases hhk : hasKey ref (refKeyOf row.workflow row.bls) = true
      · rw [show processRows i v src false (row :: rest) streams ref =
            processRows i v src false rest streams
              (removeKey ref (refKeyOf row.workflow row.bls)) by
            simp [processRows, hwf, hb, hhk]]
        rw [refKeys_cons_of_reference rest hb, List.nodup_cons] at hdup
        by_cases hmem : refKeyOf row.workflow row.bls ∈ refKeys i v rest
        · apply processRows_validate_extra i v src rest streams _ hrest
          refine ⟨refKeyOf row.workflow row.bls, hmem, ?_⟩
          intro hc
          rcases (mem_removeKey_iff hrefnd _ _).mp hc with ⟨_, hne⟩
          exact hne rfl
        · apply ih streams _ hrest (removeKey_nodup hrefnd)
          intro hc
          exact hdup ⟨hmem, hc⟩
      · exact ⟨mismatchError row.workflow, by simp [processRows, hwf, hb, hhk]⟩

/-! ### Lemmas: `processSource` -/

theorem processSource_some_eq (i : String → Bool) (v : VSchema) (src : ShardInfo)
    (rows : List VRow) (m : RefMap) :
    processSource i v src rows (some m) =
      match processRows i v src false rows m (m.map Prod.fst) with
      | (streams, _, some e) => (streams, some e)
      | (streams, ref, none) =>
        if ref.length ≠ 0 then (streams, some (mismatchSetError ref))
        else (streams, none) := rfl

theorem processSource_none_eq (i : String → Bool) (v : VSchema) (src : ShardInfo)
    (rows : List VRow) :
    processSource i v src rows none =
      match processRows i v src true rows [] [] with
      | (streams, _, some e) => (streams, some e)
      | (streams, ref, none) =>
        if ref.length ≠ 0 then (streams, some (mismatchSetError ref))
        else (streams, none) := rfl

theorem processSource_none_of_clean (i : String → Bool) (v : VSchema) (src : ShardInfo)
    (rows : List VRow) (hclean : rowsClean i v rows = true) :
    processSource i v src rows none = (insertAll [] (refEntries i v rows), none) := by
  rw [processSource_none_eq, processRows_create i v src rows [] [] hclean]
  simp

theorem processSource_validate_fst (i : String → Bool) (v : VSchema) (src : ShardInfo)
    (rows : List VRow) (m : RefMap) :
    (processSource i v src rows (some m)).1 = m := by
  rw [processSource_some_eq]
  have hfst := processRows_validate_fst i v src rows m (m.map Prod.fst)
  rcases hp : processRows i v src false rows m (m.map Prod.fst) with ⟨streams, ref, err⟩
  rw [hp] at hfst
  simp only at hfst
  cases err with
  | none =>
    by_cases h : ref.length ≠ 0
    · simp [h, hfst]
    · simp [h, hfst]
  | some e => simp [hfst]

theorem processSource_validate_mismatch (i : String → Bool) (v : VSchema)
    (src : ShardInfo) (rows : List VRow) (m : RefMap)
    (hclean : rowsClean i v rows = true) :
    ∀ e, (processSource i v src rows (some m)).2 = some e →
    strHasPrefix mismatchPrefix e = true := by
  intro e he
  rw [processSource_some_eq] at he
  rcases hp : processRows i v src false rows m (m.map Prod.fst) with ⟨streams, ref, err⟩
  rw [hp] at he
  cases err with
  | none =>
    by_cases h : ref.length ≠ 0
    · simp [h] at he
      rw [← he]
      exact strHasPrefix_append _ _ _ (strHasPrefix_self mismatchPrefix)
    · simp [h] at he
  | some e' =>
    have h2 : e' = e := by simpa using he
    subst h2
    exact processRows_validate_mismatch i v src rows m (m.map Prod.fst) hclean e'
      (by rw [hp])

theorem processSource_validate_iff (i : String → Bool) (v : VSchema) (src : ShardInfo)
    (rows : List VRow) (m : RefMap)
    (hkeys : (m.map Prod.fst).Nodup) (hclean : rowsClean i v rows = true) :
    (processSource i v src rows (some m)).2 = none ↔
      ((refKeys i v rows).Nodup ∧
        ∀ k, k ∈ refKeys i v rows ↔ k ∈ m.map Prod.fst) := by
  constructor
  · intro hnone
    by_cases hnd : (refKeys i v rows).Nodup
    · by_cases hsub : ∀ k ∈ refKeys i v rows, k ∈ m.map Prod.fst
      · rcases processRows_validate_ok i v src rows m (m.map Prod.fst)
          hclean hnd hsub hkeys with ⟨refF, h1, h2, h3⟩
        rw [processSource_some_eq, h1] at hnone
        by_cases hlen : refF.length ≠ 0
        · simp [hlen] at hnone
        · have hFnil : refF = [] := by
            cases refF with
            | nil => rfl
            | cons a as => simp at hlen
          refine ⟨hnd, fun k => ⟨fun hk => hsub k hk, fun hkm => ?_⟩⟩
          by_contra hknot
          have hmem : k ∈ refF := (h3 k).mpr ⟨hkm, hknot⟩
          rw [hFnil] at hmem
          simp at hmem
      · push_neg at hsub
        rcases hsub with ⟨k, hk, hknot⟩
        rcases processRows_validate_extra i v src rows m (m.map Prod.fst)
          hclean ⟨k, hk, hknot⟩ with ⟨e, he⟩
        rw [processSource_some_eq] at hnone
        rcases hp : processRows i v src false rows m (m.map Prod.fst) with ⟨s', r', err⟩
        rw [hp] at hnone he
        cases err with
        | none => simp at he
        | some e' => simp at hnone
    · rcases processRows_validate_dup i v src rows m (m.map Prod.fst)
        hclean hkeys hnd with ⟨e, he⟩
      rw [processSource_some_eq] at hnone
      rcases hp : processRows i v src false rows m (m.map Prod.fst) with ⟨s', r', err⟩
      rw [hp] at hnone he
      cases err with
      | none => simp at he
      | some e' => simp at hnone
  · rintro ⟨hnd, hiff⟩
    rcases processRows_validate_ok i v src rows m (m.map Prod.fst)
      hclean hnd (fun k hk => (hiff k).mp hk) hkeys with ⟨refF, h1, h2, h3⟩
    rw [processSource_some_eq, h1]
    have hFnil : refF = [] := by
      apply List.eq_nil_iff_forall_not_mem.mpr
      intro a ha
      rcases (h3 a).mp ha with ⟨ham, hanot⟩
      exact hanot ((hiff a).mpr ham)
    rw [hFnil]
    simp

/-! ### Lemmas: the `readRefStreams` loop -/

theorem readRefStreamsLoop_validating (i : String → Bool) (v : VSchema)
    (catalog : String → List VRow) (primaries : List (String × TabletInfo)) :
    ∀ (rest : List ShardInfo) (m : RefMap),
    (∀ src ∈ rest,
      (processSource i v src
        (sourceRows catalog ((findTablet primaries src.ShardName).DbName)) (some m)).2 =
        none) →
    readRefStreamsLoop i v catalog primaries rest (some m) = (some m, []) := by
  intro rest
  induction rest with
  | nil => intro m _; rfl
  | cons src rest ih =>
    intro m h
    have hsrc := h src (List.mem_cons_self _ _)
    have hfst := processSource_validate_fst i v src
      (sourceRows catalog ((findTablet primaries src.ShardName).DbName)) m
    simp only [readRefStreamsLoop]
    rw [hsrc, hfst, ih m (fun s hs => h s (List.mem_cons_of_mem _ hs))]
    simp

theorem refEntries_insertAll_of_nodup (i : String → Bool) (v : VSchema) (rows : List VRow)
    (hnd : (refKeys i v rows).Nodup) :
    insertAll [] (refEntries i v rows) = refEntries i v rows := by
  have h := insertAll_fresh (refEntries i v rows) []
    (by rw [refEntries_keys]; exact hnd) (by simp)
  simpa using h

theorem readRefStreams_identical (i : String → Bool) (v : VSchema)
    (catalog : String → List VRow) (primaries : List (String × TabletInfo))
    (s0 : ShardInfo) (rest : List ShardInfo) (R : List VRow)
    (hrows : ∀ src ∈ s0 :: rest,
      sourceRows catalog ((findTablet primaries src.ShardName).DbName) = R)
    (hclean : rowsClean i v R = true)
    (hnd : (refKeys i v R).Nodup) :
    readRefStreams i v catalog primaries (s0 :: rest) =
      (some (refEntries i v R), Except.ok ()) := by
  have h0 : sourceRows catalog ((findTablet primaries s0.ShardName).DbName) = R :=
    hrows s0 (List.mem_cons_self _ _)
  have hdef : processSource i v s0
      (sourceRows catalog ((findTablet primaries s0.ShardName).DbName)) none =
      (refEntries i v R, none) := by
    rw [h0, processSource_none_of_clean i v s0 R hclean,
      refEntries_insertAll_of_nodup i v R hnd]
  have hkeys : ((refEntries i v R).map Prod.fst).Nodup := by
    rw [refEntries_keys]; exact hnd
  have hvalid : ∀ src ∈ rest,
      (processSource i v src
        (sourceRows catalog ((findTablet primaries src.ShardName).DbName))
        (some (refEntries i v R))).2 = none := by
    intro src hsrc
    rw [hrows src (List.mem_cons_of_mem _ hsrc)]
    rw [processSource_validate_iff i v src R (refEntries i v R) hkeys hclean]
    refine ⟨hnd, fun k => ?_⟩
    rw [refEntries_keys]
  unfold readRefStreams
  simp only [readRefStreamsLoop]
  rw [hdef]
  simp only
  rw [readRefStreamsLoop_validating i v catalog primaries rest (refEntries i v R) hvalid]
  simp

/-! ### Lemmas: stream classification -/

theorem identifyRuleType_ne_unknown (i : String → Bool) (v : VSchema) (r : Rule) :
    identifyRuleType i v r ≠ Except.ok StreamType.unknown := by
  unfold identifyRuleType
  cases lookupTable v r.Match with
  | none =>
    by_cases h : i r.Match = true
    · simp [h]
    · simp [h]
  | some t =>
    by_cases h : (t.typ == TypeReference) = true
    · simp [h]
    · simp [h]

theorem blsLoop_step_from_unknown (i : String → Bool) (v : VSchema) (bls : BinlogSource)
    (r : Rule) (rest : List Rule) (t : StreamType)
    (ht : t ≠ StreamType.unknown) (hr : identifyRuleType i v r = Except.ok t) :
    blsIsReferenceLoop i v bls (r :: rest) StreamType.unknown =
      blsIsReferenceLoop i v bls rest t := by
  cases t with
  | unknown => exact absurd rfl ht
  | sharded => simp [blsIsReferenceLoop, hr]
  | reference => simp [blsIsReferenceLoop, hr]

theorem blsLoop_step_same (i : String → Bool) (v : VSchema) (bls : BinlogSource)
    (r : Rule) (rest : List Rule) (t : StreamType)
    (ht : t ≠ StreamType.unknown) (hr : identifyRuleType i v r = Except.ok t) :
    blsIsReferenceLoop i v bls (r :: rest) t = blsIsReferenceLoop i v bls rest t := by
  cases t with
  | unknown => exact absurd rfl ht
  | sharded => simp [blsIsReferenceLoop, hr]
  | reference => simp [blsIsReferenceLoop, hr]

theorem blsLoop_all_same (i : String → Bool) (v : VSchema) (bls : BinlogSource) :
    ∀ (rules : List Rule) (t : StreamType), t ≠ StreamType.unknown →
    (∀ r ∈ rules, identifyRuleType i v r = Except.ok t) →
    blsIsReferenceLoop i v bls rules t = Except.ok t := by
  intro rules
  induction rules with
  | nil => intro t _ _; rfl
  | cons r rest ih =>
    intro t ht h
    rw [blsLoop_step_same i v bls r rest t ht (h r (List.mem_cons_self _ _))]
    exact ih t ht (fun r' hr' => h r' (List.mem_cons_of_mem _ hr'))

theorem blsLoop_prefix_same (i : String → Bool) (v : VSchema) (bls : BinlogSource) :
    ∀ (pre rules2 : List Rule) (t : StreamType), t ≠ StreamType.unknown →
    (∀ r ∈ pre, identifyRuleType i v r = Except.ok t) →
    blsIsReferenceLoop i v bls (pre ++ rules2) t =
      blsIsReferenceLoop i v bls rules2 t := by
  intro pre
  induction pre with
  | nil => intro rules2 t _ _; rfl
  | cons r pre ih =>
    intro rules2 t ht h
    rw [List.cons_append,
      blsLoop_step_same i v bls r (pre ++ rules2) t ht (h r (List.mem_cons_self _ _))]
    exact ih rules2 t ht (fun r' hr' => h r' (List.mem_cons_of_mem _ hr'))

theorem blsLoop_opposite_head (i : String → Bool) (v : VSchema) (bls : BinlogSource)
    (r : Rule) (post : List Rule) (t tbad : StreamType)
    (ht : t ≠ StreamType.unknown) (htbad : tbad ≠ StreamType.unknown) (hne : tbad ≠ t)
    (hr : identifyRuleType i v r = Except.ok tbad) :
    blsIsReferenceLoop i v bls (r :: post) t = Except.error (mixError bls) := by
  cases t with
  | unknown => exact absurd rfl ht
  | sharded =>
    cases tbad with
    | unknown => exact absurd rfl htbad
    | sharded => exact absurd rfl hne
    | reference => simp [blsIsReferenceLoop, hr]
  | reference =>
    cases tbad with
    | unknown => exact absurd rfl htbad
    | sharded => simp [blsIsReferenceLoop, hr]
    | reference => exact absurd rfl hne

/-! ### Lemmas: the fan-out executor -/

theorem forAllErrors_nil_iff (shards : List ShardInfo) (f : ShardInfo → Except String Unit) :
    forAllErrors shards f = [] ↔ ∀ s ∈ shards, f s = Except.ok () := by
  unfold forAllErrors
  rw [List.filterMap_eq_nil]
  constructor
  · intro h s hs
    have hmatch := h s hs
    cases hf : f s with
    | ok u => cases u; rfl
    | error e => rw [hf] at hmatch; simp at hmatch
  · intro h s hs
    rw [h s hs]

theorem forAll_ok_iff (shards : List ShardInfo) (f : ShardInfo → Except String Unit) :
    forAll shards f = Except.ok () ↔ ∀ s ∈ shards, f s = Except.ok () := by
  constructor
  · intro h
    apply (forAllErrors_nil_iff shards f).mp
    rcases hl : forAllErrors shards f with _ | ⟨e, es⟩
    · rfl
    · unfold forAll at h
      rw [hl] at h
      simp at h
  · intro hall
    unfold forAll
    rw [(forAllErrors_nil_iff shards f).mpr hall]

theorem forAllErrors_length (shards : List ShardInfo) (f : ShardInfo → Except String Unit) :
    (forAllErrors shards f).length =
      (shards.filter (fun s =>
        match f s with
        | Except.ok _ => false
        | Except.error _ => true)).length := by
  induction shards with
  | nil => rfl
  | cons s shards ih =>
    unfold forAllErrors at ih ⊢
    rw [List.filterMap_cons, List.filter_cons]
    cases hf : f s with
    | ok u => simp [hf, ih]
    | error e => simp [hf, ih]

theorem mem_forAllErrors (shards : List ShardInfo) (f : ShardInfo → Except String Unit) :
    ∀ s ∈ shards, ∀ e, f s = Except.error e → e ∈ forAllErrors shards f := by
  intro s hs e hf
  unfold forAllErrors
  exact List.mem_filterMap.mpr ⟨s, hs, by rw [hf]⟩

theorem forAllErrors_all (shards : List ShardInfo) (f : ShardInfo → Except String Unit)
    (P : String → Prop) (hall : ∀ s ∈ shards, ∀ e, f s = Except.error e → P e) :
    ∀ e ∈ forAllErrors shards f, P e := by
  intro e he
  unfold forAllErrors at he
  rcases List.mem_filterMap.mp he with ⟨s, hs, hmatch⟩
  cases hf : f s with
  | ok u => rw [hf] at hmatch; simp at hmatch
  | error e' =>
    rw [hf] at hmatch
    have : e' = e := by simpa using hmatch
    exact this ▸ hall s hs e' hf

theorem forAll_error_eq (shards : List ShardInfo) (f : ShardInfo → Except String Unit)
    (h : forAll shards f ≠ Except.ok ()) :
    forAll shards f = Except.error (aggregate (forAllErrors shards f)) := by
  unfold forAll at h ⊢
  rcases hl : forAllErrors shards f with _ | ⟨e, es⟩
  · rw [hl] at h
    simp at h
  · rfl

/-! ### Lemmas: `loadShards` and `buildResharder` -/

theorem loadShards_ok_spec (env : TopoEnv) (keyspace : String) :
    ∀ (names : List String) (isTarget : Bool) (sis : List ShardInfo)
      (prims : List (String × TabletInfo)),
    loadShards env keyspace names isTarget = Except.ok (sis, prims) →
    ∀ name ∈ names, ∃ si ti,
      env.getShard keyspace name = some si ∧
      si.IsPrimaryServing = !isTarget ∧
      env.getTablet si.PrimaryAlias = some ti ∧
      si ∈ sis ∧ (si.ShardName, ti) ∈ prims := by
  intro names
  induction names with
  | nil =>
    intro _ _ _ _ name hname
    simp at hname
  | cons shard rest ih =>
    intro isTarget sis prims h name hname
    unfold loadShards at h
    split at h
    · simp at h
    · rename_i si hg
      split at h
      · simp at h
      · rename_i hserv
        split at h
        · simp at h
        · rename_i ti ht
          split at h
          · simp at h
          · rename_i sis' prims' hrec
            have hinj : si :: sis' = sis ∧ (si.ShardName, ti) :: prims' = prims := by
              have := Except.ok.inj h
              exact ⟨congrArg Prod.fst this, congrArg Prod.snd this⟩
            rcases hinj with ⟨hsis, hprims⟩
            have hflip : si.IsPrimaryServing = !isTarget := by
              cases isTarget <;> cases hsv : si.IsPrimaryServing <;> simp_all
            rcases List.mem_cons.mp hname with rfl | hname'
            · exact ⟨si, ti, hg, hflip, ht, hsis ▸ List.mem_cons_self _ _,
                hprims ▸ List.mem_cons_self _ _⟩
            · rcases ih isTarget sis' prims' hrec name hname' with
                ⟨si', ti', hg', hf', ht', hm1, hm2⟩
              exact ⟨si', ti', hg', hf', ht', hsis ▸ List.mem_cons_of_mem _ hm1,
                hprims ▸ List.mem_cons_of_mem _ hm2⟩

theorem loadShards_error_of_bad (env : TopoEnv) (keyspace : String) :
    ∀ (names : List String) (isTarget : Bool),
    (∃ name ∈ names, ∃ si, env.getShard keyspace name = some si ∧
      si.IsPrimaryServing = isTarget) →
    ∃ e, loadShards env keyspace names isTarget = Except.error e := by
  intro names isTarget hex
  cases hres : loadShards env keyspace names isTarget with
  | error e => exact ⟨e, rfl⟩
  | ok p =>
    exfalso
    rcases p with ⟨sis, prims⟩
    rcases hex with ⟨name, hname, si, hg, hserv⟩
    rcases loadShards_ok_spec env keyspace names isTarget sis prims hres name hname with
      ⟨si', ti, hg', hflip, _, _, _⟩
    rw [hg] at hg'
    rcases Option.some.inj hg' with rfl
    rw [hserv] at hflip
    cases isTarget <;> simp at hflip

theorem buildResharder_ok_spec (env : TopoEnv) (keyspace workflow : String)
    (sources targets : List String) (cell tabletTypes : String) (rs : Resharder)
    (h : (buildResharder env keyspace workflow sources targets cell tabletTypes).1 =
      Except.ok rs) :
    ∃ sis sp tis tp,
      loadShards env keyspace sources false = Except.ok (sis, sp) ∧
      loadShards env keyspace targets true = Except.ok (tis, tp) ∧
      rs.sourceShards = sis ∧ rs.sourcePrimaries = sp ∧
      rs.targetShards = tis ∧ rs.targetPrimaries = tp := by
  unfold buildResharder at h
  cases h1 : loadShards env keyspace sources false with
  | error e => simp [h1] at h
  | ok p =>
    rcases p with ⟨sis, sp⟩
    simp only [h1] at h
    cases h2 : loadShards env keyspace targets true with
    | error e => simp [h2] at h
    | ok q =>
      rcases q with ⟨tis, tp⟩
      simp only [h2] at h
      cases h3 : env.validateForReshard sis tis with
      | error e => simp [h3] at h
      | ok u =>
        cases u
        simp only [h3] at h
        cases h4 : validateTargets
            { keyspace := keyspace, workflow := workflow, sourceShards := sis,
              sourcePrimaries := sp, targetShards := tis, targetPrimaries := tp,
              vschema := { Tables := [] }, refStreams := [], cell := cell,
              tabletTypes := tabletTypes, stopAfterCopy := false, onDDL := "",
              deferSecondaryKeys := false } env.catalog with
        | error e => simp [h4] at h
        | ok u =>
          cases u
          simp only [h4] at h
          cases h5 : env.getVSchema keyspace with
          | none => simp [h5] at h
          | some vschema =>
            simp only [h5] at h
            cases h6 : (readRefStreams env.internal vschema env.catalog sp sis).2 with
            | error e => simp [h6] at h
            | ok u =>
              cases u
              simp only [h6] at h
              have h' := Except.ok.inj h
              refine ⟨sis, sp, tis, tp, rfl, rfl, ?_, ?_, ?_, ?_⟩ <;> rw [← h']

theorem buildResharder_error_of_bad_source (env : TopoEnv) (keyspace workflow : String)
    (sources targets : List String) (cell tabletTypes : String)
    (hex : ∃ name ∈ sources, ∃ si, env.getShard keyspace name = some si ∧
      si.IsPrimaryServing = false) :
    ∃ e, (buildResharder env keyspace workflow sources targets cell tabletTypes).1 =
      Except.error e := by
  cases hres : (buildResharder env keyspace workflow sources targets cell tabletTypes).1 with
  | error e => exact ⟨e, rfl⟩
  | ok rs =>
    exfalso
    rcases buildResharder_ok_spec env keyspace workflow sources targets cell tabletTypes
      rs hres with ⟨sis, sp, tis, tp, hs, _, _, _, _, _⟩
    rcases hex with ⟨name, hname, si, hg, hserv⟩
    rcases loadShards_ok_spec env keyspace sources false sis sp hs name hname with
      ⟨si', ti, hg', hflip, _⟩
    rw [hg] at hg'
    rcases Option.some.inj hg' with rfl
    rw [hserv] at hflip
    simp at hflip

theorem buildResharder_error_of_bad_target (env : TopoEnv) (keyspace workflow : String)
    (sources targets : List String) (cell tabletTypes : String)
    (hex : ∃ name ∈ targets, ∃ si, env.getShard keyspace name = some si ∧
      si.IsPrimaryServing = true) :
    ∃ e, (buildResharder env keyspace workflow sources targets cell tabletTypes).1 =
      Except.error e := by
  cases hres : (buildResharder env keyspace workflow sources targets cell tabletTypes).1 with
  | error e => exact ⟨e, rfl⟩
  | ok rs =>
    exfalso
    rcases buildResharder_ok_spec env keyspace workflow sources targets cell tabletTypes
      rs hres with ⟨sis, sp, tis, tp, _, htg, _, _, _, _⟩
    rcases hex with ⟨name, hname, si, hg, hserv⟩
    rcases loadShards_ok_spec env keyspace targets true tis tp htg name hname with
      ⟨si', ti, hg', hflip, _⟩
    rw [hg] at hg'
    rcases Option.some.inj hg' with rfl
    rw [hserv] at hflip
    simp at hflip

/-! ### Lemmas: issued queries are reads -/

theorem isSelectQuery_probe (db : String) : isSelectQuery (probeQuery db) = true := by
  unfold isSelectQuery probeQuery
  exact strHasPrefix_append _ _ _ (by rfl)

theorem isSelectQuery_read (db : String) : isSelectQuery (readQuery db) = true := by
  unfold isSelectQuery readQuery
  exact strHasPrefix_append _ _ _ (strHasPrefix_append _ _ _ (strHasPrefix_append _ _ _
    (strHasPrefix_append _ _ _ (strHasPrefix_append _ _ _ (by rfl)))))

theorem validateTargetsQueries_select (rs : Resharder) :
    ∀ q ∈ validateTargetsQueries rs, isSelectQuery q = true := by
  intro q hq
  rcases List.mem_map.mp hq with ⟨t, _, rfl⟩
  exact isSelectQuery_probe _

theorem readRefStreamsQueries_select (rs : Resharder) :
    ∀ q ∈ readRefStreamsQueries rs, isSelectQuery q = true := by
  intro q hq
  rcases List.mem_map.mp hq with ⟨t, _, rfl⟩
  exact isSelectQuery_read _

/-! ### Lemma: an error on the second source fails `readRefStreams` -/

theorem readRefStreams_second_source_error (i : String → Bool) (v : VSchema)
    (catalog : String → List VRow) (primaries : List (String × TabletInfo))
    (s0 s1 : ShardInfo) (rest : List ShardInfo) (rows0 rows1 : List VRow)
    (m : RefMap) (e : String)
    (h0 : sourceRows catalog ((findTablet primaries s0.ShardName).DbName) = rows0)
    (h1 : sourceRows catalog ((findTablet primaries s1.ShardName).DbName) = rows1)
    (hm : processSource i v s0 rows0 none = (m, none))
    (he : (processSource i v s1 rows1 (some m)).2 = some e) :
    ∃ err, (readRefStreams i v catalog primaries (s0 :: s1 :: rest)).2 =
      Except.error err := by
  unfold readRefStreams
  simp only [readRefStreamsLoop, h0, h1, hm]
  rcases hp : processSource i v s1 rows1 (some m) with ⟨m1, e1⟩
  rw [hp] at he
  simp only at he
  subst he
  simp

/-! ### The claims -/

/-- Claim C1 — Reference-stream preservation: if every source shard exposes
the same list `R` of catalog rows (hence the same set of reference streams,
with distinct `refKey`s and processable rows), then `readRefStreams`
succeeds and produces exactly the reference-stream entries of `R`, and for
every target shard `createStreams` appends exactly that many reference-stream
rows to the target's insert — each carrying the original `BinlogSource`
verbatim, the reference stream's original workflow name (not the reshard's
`workflow`), and the original cell and tablet types. -/
theorem createStreams_preserves_refStreams (i : String → Bool) (v : VSchema)
    (catalog : String → List VRow) (primaries : List (String × TabletInfo))
    (s0 : ShardInfo) (rest : List ShardInfo) (R : List VRow) (rs : Resharder)
    (hrows : ∀ src ∈ s0 :: rest,
      sourceRows catalog ((findTablet primaries src.ShardName).DbName) = R)
    (hclean : rowsClean i v R = true)
    (hnd : (refKeys i v R).Nodup)
    (hrs : rs.refStreams = refEntries i v R) :
    readRefStreams i v catalog primaries (s0 :: rest) =
      (some (refEntries i v R), Except.ok ())
    ∧ ∀ target : ShardInfo,
        rowsForTarget rs target = shardedRowsForTarget rs target ++ refRowsForTarget rs
        ∧ (refRowsForTarget rs).length = (refEntries i v R).length
        ∧ ∀ row ∈ refRowsForTarget rs, ∃ p ∈ refEntries i v R,
            row.workflow = p.2.workflow ∧ row.bls = p.2.bls ∧
            row.cell = p.2.cell ∧ row.tabletTypes = p.2.tabletTypes := by
  refine ⟨readRefStreams_identical i v catalog primaries s0 rest R hrows hclean hnd, ?_⟩
  intro target
  refine ⟨rfl, ?_, ?_⟩
  · unfold refRowsForTarget
    rw [hrs, List.length_map]
  · intro row hrow
    unfold refRowsForTarget at hrow
    rw [hrs] at hrow
    rcases List.mem_map.mp hrow with ⟨p, hp, rfl⟩
    exact ⟨p, hp, rfl, rfl, rfl, rfl⟩

/-- Witness for C1, at the one-source world with one reference stream. -/
theorem createStreams_preserves_refStreams_witness :
    readRefStreams cInternal cVSchema cCatalog [("-", cTabS1)] [cSrc] =
      (some (refEntries cInternal cVSchema [cRowRef]), Except.ok ()) :=
  (createStreams_preserves_refStreams cInternal cVSchema cCatalog [("-", cTabS1)]
    cSrc [] [cRowRef] cRs
    (by
      intro src hsrc
      rcases List.mem_singleton.mp hsrc with rfl
      rfl)
    (by rfl) (by decide) (by rfl)).1

/-- Claim C2 — Sharded fan-out count: for every target shard, the number of
sharded-stream rows `createStreams` adds equals the number of source shards
whose key range intersects the target's, and every sharded row originates
from an intersecting source shard. -/
theorem createStreams_sharded_fanout_count (rs : Resharder) (target : ShardInfo) :
    (shardedRowsForTarget rs target).length =
      (rs.sourceShards.filter
        (fun source => keyRangeIntersect target.ShardKeyRange source.ShardKeyRange)).length
    ∧ ∀ row ∈ shardedRowsForTarget rs target, ∃ source ∈ rs.sourceShards,
        keyRangeIntersect target.ShardKeyRange source.ShardKeyRange = true ∧
        row.bls.Shard = source.ShardName := by
  constructor
  · unfold shardedRowsForTarget
    rw [List.length_map]
  · intro row hrow
    unfold shardedRowsForTarget at hrow
    rcases List.mem_map.mp hrow with ⟨source, hsrc, rfl⟩
    rcases List.mem_filter.mp hsrc with ⟨hmem, hint⟩
    exact ⟨source, hmem, hint, rfl⟩

/-- Witness for C2: the full-range source intersects the left target. -/
theorem createStreams_sharded_fanout_count_witness :
    (shardedRowsForTarget cRs cTgtLeft).length =
      (cRs.sourceShards.filter
        (fun source => keyRangeIntersect cTgtLeft.ShardKeyRange source.ShardKeyRange)).length :=
  (createStreams_sharded_fanout_count cRs cTgtLeft).1

/-- Claim C3 — Stream classification: a rule matching a reference-typed
vschema table classifies as reference; a rule for any other vschema table,
or for an internal-operation table name absent from the vschema, classifies
as sharded; a rule absent from the vschema and not internal is the
unknown-table error; a stream with no rules classifies as sharded; the
stream adopts the first rule's classification, and a later rule of the
opposite classification fails with the mix error. -/
theorem blsIsReference_classification (i : String → Bool) (v : VSchema)
    (bls : BinlogSource) (rule : Rule) (t : VTable) :
    (lookupTable v rule.Match = some t → t.typ = TypeReference →
      identifyRuleType i v rule = Except.ok StreamType.reference)
    ∧ (lookupTable v rule.Match = some t → t.typ ≠ TypeReference →
      identifyRuleType i v rule = Except.ok StreamType.sharded)
    ∧ (lookupTable v rule.Match = none → i rule.Match = true →
      identifyRuleType i v rule = Except.ok StreamType.sharded)
    ∧ (lookupTable v rule.Match = none → i rule.Match = false →
      identifyRuleType i v rule = Except.error (unknownTableError rule.Match))
    ∧ (bls.SourceFilter.Rules = [] → blsIsReference i v bls = Except.ok false)
    ∧ (∀ (r0 : Rule) (rrest : List Rule) (t0 : StreamType),
        bls.SourceFilter.Rules = r0 :: rrest →
        identifyRuleType i v r0 = Except.ok t0 →
        (∀ r ∈ rrest, identifyRuleType i v r = Except.ok t0) →
        blsIsReference i v bls = Except.ok (t0 == StreamType.reference))
    ∧ (∀ (pre : List Rule) (bad : Rule) (post : List Rule) (t0 tbad : StreamType),
        bls.SourceFilter.Rules = pre ++ bad :: post →
        pre ≠ [] →
        (∀ r ∈ pre, identifyRuleType i v r = Except.ok t0) →
        identifyRuleType i v bad = Except.ok tbad →
        tbad ≠ t0 →
        blsIsReference i v bls = Except.error (mixError bls)) := by
  refine ⟨?_, ?_, ?_, ?_, ?_, ?_, ?_⟩
  · intro h ht
    unfold identifyRuleType
    rw [h]
    simp [ht, TypeReference]
  · intro h ht
    unfold identifyRuleType
    rw [h]
    simp [ht]
  · intro h hi
    unfold identifyRuleType
    rw [h, hi]
    rfl
  · intro h hi
    unfold identifyRuleType
    rw [h, hi]
    rfl
  · intro h
    unfold blsIsReference
    rw [h]
    rfl
  · intro r0 rrest t0 hrules hr0 hall
    have ht0 : t0 ≠ StreamType.unknown := by
      intro hc
      exact identifyRuleType_ne_unknown i v r0 (hc ▸ hr0)
    unfold blsIsReference
    rw [hrules, blsLoop_step_from_unknown i v bls r0 rrest t0 ht0 hr0,
      blsLoop_all_same i v bls rrest t0 ht0 hall]
  · intro pre bad post t0 tbad hrules hpre hall hbad hne
    have htbad : tbad ≠ StreamType.unknown := by
      intro hc
      exact identifyRuleType_ne_unknown i v bad (hc ▸ hbad)
    cases pre with
    | nil => exact absurd rfl hpre
    | cons p0 pre' =>
      have hp0 : identifyRuleType i v p0 = Except.ok t0 :=
        hall p0 (List.mem_cons_self _ _)
      have ht0 : t0 ≠ StreamType.unknown := by
        intro hc
        exact identifyRuleType_ne_unknown i v p0 (hc ▸ hp0)
      unfold blsIsReference
      rw [hrules, List.cons_append,
        blsLoop_step_from_unknown i v bls p0 (pre' ++ bad :: post) t0 ht0 hp0,
        blsLoop_prefix_same i v bls pre' (bad :: post) t0 ht0
          (fun r hr => hall r (List.mem_cons_of_mem _ hr)),
        blsLoop_opposite_head i v bls bad post t0 tbad ht0 htbad hne hbad]

/-- Witness for C3: the reference table classifies as reference, and the
mixed stream fails with the mix error. -/
theorem blsIsReference_classification_witness :
    identifyRuleType cInternal cVSchema { Match := "country", Filter := "" } =
      Except.ok StreamType.reference
    ∧ blsIsReference cInternal cVSchema cBlsMix = Except.error (mixError cBlsMix) :=
  ⟨(blsIsReference_classification cInternal cVSchema cBlsMix
      { Match := "country", Filter := "" } cCountry).1 (by rfl) (by rfl),
   (blsIsReference_classification cInternal cVSchema cBlsMix
      { Match := "country", Filter := "" } cCountry).2.2.2.2.2.2
      [{ Match := "country", Filter := "" }] { Match := "cust", Filter := "" } []
      StreamType.reference StreamType.sharded rfl (by simp)
      (by
        intro r hr
        rcases List.mem_singleton.mp hr with rfl
        rfl)
      (by rfl) (by decide)⟩

/-- Claim C4 — Cross-source agreement: the first source processed defines the
`refStreams` map from its reference rows; a subsequently processed source
must report exactly the same set of `refKey`s — if it reports a key the map
does not hold, or the map holds a key it never reports, its turn fails with
a "streams are mismatched across source shards" error and `readRefStreams`
returns an error. -/
theorem readRefStreams_cross_source_agreement (i : String → Bool) (v : VSchema)
    (catalog : String → List VRow) (primaries : List (String × TabletInfo))
    (s0 s1 : ShardInfo) (rest : List ShardInfo) (rows0 rows1 : List VRow)
    (h0 : sourceRows catalog ((findTablet primaries s0.ShardName).DbName) = rows0)
    (h1 : sourceRows catalog ((findTablet primaries s1.ShardName).DbName) = rows1)
    (hclean0 : rowsClean i v rows0 = true)
    (hnd0 : (refKeys i v rows0).Nodup)
    (hclean1 : rowsClean i v rows1 = true) :
    processSource i v s0 rows0 none = (refEntries i v rows0, none)
    ∧ (((∃ k ∈ refKeys i v rows1, k ∉ refKeys i v rows0) ∨
        (∃ k ∈ refKeys i v rows0, k ∉ refKeys i v rows1)) →
      (∃ e, (processSource i v s1 rows1 (some (refEntries i v rows0))).2 = some e ∧
        strHasPrefix mismatchPrefix e = true)
      ∧ ∃ err, (readRefStreams i v catalog primaries (s0 :: s1 :: rest)).2 =
          Except.error err) := by
  have hm : processSource i v s0 rows0 none = (refEntries i v rows0, none) := by
    rw [processSource_none_of_clean i v s0 rows0 hclean0,
      refEntries_insertAll_of_nodup i v rows0 hnd0]
  refine ⟨hm, ?_⟩
  intro hbad
  have hkeys : ((refEntries i v rows0).map Prod.fst).Nodup := by
    rw [refEntries_keys]
    exact hnd0
  have hne : (processSource i v s1 rows1 (some (refEntries i v rows0))).2 ≠ none := by
    intro hcontra
    rcases (processSource_validate_iff i v s1 rows1 (refEntries i v rows0)
      hkeys hclean1).mp hcontra with ⟨hnd1, hiff⟩
    have hiff' : ∀ k, k ∈ refKeys i v rows1 ↔ k ∈ refKeys i v rows0 := by
      intro k
      rw [hiff k, refEntries_keys]
    rcases hbad with ⟨k, hk, hknot⟩ | ⟨k, hk, hknot⟩
    · exact hknot ((hiff' k).mp hk)
    · exact hknot ((hiff' k).mpr hk)
  obtain ⟨e, he⟩ : ∃ e,
      (processSource i v s1 rows1 (some (refEntries i v rows0))).2 = some e := by
    cases hc : (processSource i v s1 rows1 (some (refEntries i v rows0))).2 with
    | none => exact absurd hc hne
    | some e => exact ⟨e, rfl⟩
  refine ⟨⟨e, he, processSource_validate_mismatch i v s1 rows1
    (refEntries i v rows0) hclean1 e he⟩, ?_⟩
  exact readRefStreams_second_source_error i v catalog primaries s0 s1 rest
    rows0 rows1 (refEntries i v rows0) e h0 h1 hm he

/-- Witness for C4: source `x` (empty catalog) disagrees with source `-`. -/
theorem readRefStreams_cross_source_agreement_witness :
    ∃ err, (readRefStreams cInternal cVSchema cCatalog cPrims
      [cSrc, cSrcX]).2 = Except.error err :=
  ((readRefStreams_cross_source_agreement cInternal cVSchema cCatalog cPrims
    cSrc cSrcX [] [cRowRef] []
    (by rfl) (by rfl) (by rfl) (by decide) (by rfl)).2
    (Or.inr ⟨refKeyOf "wf1" cBlsRef, by decide, by decide⟩)).2

/-- Claim C5 — Build-phase serving preconditions: `buildResharder` fails when
some source shard is recorded non-serving or some target shard is recorded
serving; and when it returns a resharder, every named source shard was
serving and every named target shard was non-serving, and all of their shard
records and primary tablets are recorded in the resharder. -/
theorem buildResharder_serving_preconditions (env : TopoEnv)
    (keyspace workflow : String) (sources targets : List String)
    (cell tabletTypes : String) :
    ((∃ name ∈ sources, ∃ si, env.getShard keyspace name = some si ∧
        si.IsPrimaryServing = false) →
      ∃ e, (buildResharder env keyspace workflow sources targets cell tabletTypes).1 =
        Except.error e)
    ∧ ((∃ name ∈ targets, ∃ si, env.getShard keyspace name = some si ∧
        si.IsPrimaryServing = true) →
      ∃ e, (buildResharder env keyspace workflow sources targets cell tabletTypes).1 =
        Except.error e)
    ∧ (∀ rs, (buildResharder env keyspace workflow sources targets cell tabletTypes).1 =
        Except.ok rs →
      (∀ name ∈ sources, ∃ si ti, env.getShard keyspace name = some si ∧
        si.IsPrimaryServing = true ∧ env.getTablet si.PrimaryAlias = some ti ∧
        si ∈ rs.sourceShards ∧ (si.ShardName, ti) ∈ rs.sourcePrimaries)
      ∧ (∀ name ∈ targets, ∃ si ti, env.getShard keyspace name = some si ∧
        si.IsPrimaryServing = false ∧ env.getTablet si.PrimaryAlias = some ti ∧
        si ∈ rs.targetShards ∧ (si.ShardName, ti) ∈ rs.targetPrimaries)) := by
  refine ⟨buildResharder_error_of_bad_source env keyspace workflow sources targets
      cell tabletTypes,
    buildResharder_error_of_bad_target env keyspace workflow sources targets
      cell tabletTypes, ?_⟩
  intro rs h
  rcases buildResharder_ok_spec env keyspace workflow sources targets cell tabletTypes
    rs h with ⟨sis, sp, tis, tp, hs, htg, e1, e2, e3, e4⟩
  constructor
  · intro name hname
    rcases loadShards_ok_spec env keyspace sources false sis sp hs name hname with
      ⟨si, ti, hg, hflip, ht, hm1, hm2⟩
    exact ⟨si, ti, hg, by simpa using hflip, ht,
      by rw [e1]; exact hm1, by rw [e2]; exact hm2⟩
  · intro name hname
    rcases loadShards_ok_spec env keyspace targets true tis tp htg name hname with
      ⟨si, ti, hg, hflip, ht, hm1, hm2⟩
    exact ⟨si, ti, hg, by simpa using hflip, ht,
      by rw [e3]; exact hm1, by rw [e4]; exact hm2⟩

/-- Witness for C5: a non-serving source shard makes `buildResharder` fail. -/
theorem buildResharder_serving_preconditions_witness :
    ∃ e, (buildResharder cEnvBad "ks" "wf" ["-"] ["-80", "80-"]
      "zone1" "primary").1 = Except.error e :=
  (buildResharder_serving_preconditions cEnvBad "ks" "wf" ["-"] ["-80", "80-"]
    "zone1" "primary").1 ⟨"-", by decide, cSrcBad, by rfl, rfl⟩

/-- Claim C6 — Target-emptiness guard: `validateTargets` succeeds iff every
target primary's CDC catalog returns no row to the existence probe; when it
fails, the error carries the "some streams already exist in the target
shards" message. -/
theorem validateTargets_emptiness_guard (rs : Resharder) (catalog : String → List VRow) :
    (validateTargets rs catalog = Except.ok () ↔
      ∀ t ∈ rs.targetShards,
        catalog (findTablet rs.targetPrimaries t.ShardName).DbName = [])
    ∧ (validateTargets rs catalog ≠ Except.ok () →
      ∃ e, validateTargets rs catalog = Except.error e ∧
        strHasPrefix existingStreamsError e = true) := by
  have hfiff : ∀ t : ShardInfo,
      ((if (catalog (findTablet rs.targetPrimaries t.ShardName).DbName).length ≠ 0
        then Except.error existingStreamsError else Except.ok ()) = Except.ok ()) ↔
      catalog (findTablet rs.targetPrimaries t.ShardName).DbName = [] := by
    intro t
    by_cases h : (catalog (findTablet rs.targetPrimaries t.ShardName).DbName).length ≠ 0
    · rw [if_pos h]
      constructor
      · intro hc
        exact absurd hc (by simp)
      · intro hc
        rw [hc] at h
        simp at h
    · rw [if_neg h]
      rw [not_ne_iff, List.length_eq_zero] at h
      simp [h]
  have hval : validateTargets rs catalog = forAll rs.targetShards (fun target =>
      if (catalog (findTablet rs.targetPrimaries target.ShardName).DbName).length ≠ 0
      then Except.error existingStreamsError else Except.ok ()) := rfl
  constructor
  · rw [hval, forAll_ok_iff]
    constructor
    · intro h t ht
      exact (hfiff t).mp (h t ht)
    · intro h t ht
      exact (hfiff t).mpr (h t ht)
  · intro hne
    rw [hval] at hne ⊢
    refine ⟨aggregate (forAllErrors rs.targetShards _), forAll_error_eq _ _ hne, ?_⟩
    have hall : ∀ e ∈ forAllErrors rs.targetShards (fun target =>
        if (catalog (findTablet rs.targetPrimaries target.ShardName).DbName).length ≠ 0
        then Except.error existingStreamsError else Except.ok ()),
        e = existingStreamsError := by
      apply forAllErrors_all
      intro s _ e hfe
      by_cases h : (catalog (findTablet rs.targetPrimaries s.ShardName).DbName).length ≠ 0
      · rw [if_pos h] at hfe
        exact (Except.error.inj hfe).symm
      · rw [if_neg h] at hfe
        simp at hfe
    rcases hl : forAllErrors rs.targetShards (fun target =>
        if (catalog (findTablet rs.targetPrimaries target.ShardName).DbName).length ≠ 0
        then Except.error existingStreamsError else Except.ok ()) with _ | ⟨e0, es⟩
    · exact absurd ((forAll_ok_iff _ _).mpr ((forAllErrors_nil_iff _ _).mp hl)) hne
    · have he0 : e0 = existingStreamsError :=
        hall e0 (by rw [hl]; exact List.mem_cons_self _ _)
      rw [he0]
      exact aggregate_prefix_head existingStreamsError es

/-- Witness for C6: both target catalogs are empty, so the guard passes. -/
theorem validateTargets_emptiness_guard_witness :
    validateTargets cRs cCatalog = Except.ok () :=
  (validateTargets_emptiness_guard cRs cCatalog).1.mpr (by decide)

theorem excludeRulesOf_length_aux (l : List (String × VTable)) :
    (l.filterMap (fun p =>
      if p.2.typ == TypeReference
      then some ({ Match := p.1, Filter := "exclude" } : Rule) else none)).length =
    (l.filter (fun p => p.2.typ == TypeReference)).length := by
  induction l with
  | nil => rfl
  | cons p l ih =>
    rw [List.filterMap_cons, List.filter_cons]
    by_cases hp : (p.2.typ == TypeReference) = true
    · simp [hp] at ih ⊢
      omega
    · simp [hp] at ih ⊢
      exact ih

/-- Claim C7 — Sharded-stream filter shape: every sharded row's filter is the
exclude rules (exactly one `exclude` rule per reference-typed vschema table)
followed by the catch-all rule carrying the target's key-range literal; and a
target's rows do not depend on the target list, so no target's rows are
affected by another target's. -/
theorem createStreams_filter_shape (rs : Resharder) (target : ShardInfo) :
    (∀ row ∈ shardedRowsForTarget rs target,
      row.bls.SourceFilter.Rules =
        excludeRulesOf rs.vschema ++
          [{ Match := "/.*", Filter := keyRangeString target.ShardKeyRange }])
    ∧ (∀ p ∈ rs.vschema.Tables, p.2.typ = TypeReference →
        ({ Match := p.1, Filter := "exclude" } : Rule) ∈ excludeRulesOf rs.vschema)
    ∧ (∀ r ∈ excludeRulesOf rs.vschema, ∃ p ∈ rs.vschema.Tables,
        p.2.typ = TypeReference ∧ r = { Match := p.1, Filter := "exclude" })
    ∧ (excludeRulesOf rs.vschema).length =
        (rs.vschema.Tables.filter (fun p => p.2.typ == TypeReference)).length
    ∧ (∀ targets : List ShardInfo,
        rowsForTarget { rs with targetShards := targets } target =
          rowsForTarget rs target) := by
  refine ⟨?_, ?_, ?_, excludeRulesOf_length_aux rs.vschema.Tables, fun _ => rfl⟩
  · intro row hrow
    unfold shardedRowsForTarget at hrow
    rcases List.mem_map.mp hrow with ⟨source, _, rfl⟩
    rfl
  · intro p hp htyp
    unfold excludeRulesOf
    exact List.mem_filterMap.mpr ⟨p, hp, by simp [htyp]⟩
  · intro r hr
    unfold excludeRulesOf at hr
    rcases List.mem_filterMap.mp hr with ⟨p, hp, heq⟩
    by_cases htyp : (p.2.typ == TypeReference) = true
    · rw [if_pos htyp] at heq
      exact ⟨p, hp, by simpa using htyp, (Option.some.inj heq).symm⟩
    · rw [if_neg htyp] at heq
      simp at heq

/-- Witness for C7: the reference table `country` yields an exclude rule. -/
theorem createStreams_filter_shape_witness :
    ({ Match := "country", Filter := "exclude" } : Rule) ∈ excludeRulesOf cRs.vschema :=
  (createStreams_filter_shape cRs cTgtLeft).2.1 ("country", cCountry) (by decide) rfl

/-- Claim C8 — FanOut aggregation contract: `forAll` succeeds iff every
per-shard task succeeds; the recorded errors number exactly one per failing
shard (no short-circuit on the first failure); every failing shard's error is
recorded; and on any failure the result is the aggregate of all recorded
errors. -/
theorem forAll_aggregation_contract (shards : List ShardInfo)
    (f : ShardInfo → Except String Unit) :
    (forAll shards f = Except.ok () ↔ ∀ s ∈ shards, f s = Except.ok ())
    ∧ (forAllErrors shards f).length =
        (shards.filter (fun s =>
          match f s with
          | Except.ok _ => false
          | Except.error _ => true)).length
    ∧ (∀ s ∈ shards, ∀ e, f s = Except.error e → e ∈ forAllErrors shards f)
    ∧ (forAll shards f ≠ Except.ok () →
        forAll shards f = Except.error (aggregate (forAllErrors shards f))) :=
  ⟨forAll_ok_iff shards f, forAllErrors_length shards f, mem_forAllErrors shards f,
    forAll_error_eq shards f⟩

/-- Witness for C8: a failing shard's error is recorded. -/
theorem forAll_aggregation_contract_witness :
    "boom" ∈ forAllErrors [cSrc, cSrcX]
      (fun s => if s.ShardName = "-" then Except.error "boom" else Except.ok ()) :=
  (forAll_aggregation_contract [cSrc, cSrcX]
    (fun s => if s.ShardName = "-" then Except.error "boom" else Except.ok ())).2.2.1
    cSrc (by decide) "boom" (by rfl)

/-- Claim C9 — No partial state on pre-phase error: every `VReplicationExec`
query issued during `buildResharder` (phases 1-3: target probes and
reference-stream reads) is a select statement, so no failure there can have
written to any target's CDC catalog. -/
theorem buildResharder_queries_are_selects (env : TopoEnv)
    (keyspace workflow : String) (sources targets : List String)
    (cell tabletTypes : String) :
    ∀ q ∈ (buildResharder env keyspace workflow sources targets cell tabletTypes).2,
      isSelectQuery q = true := by
  intro q hq
  unfold buildResharder at hq
  cases h1 : loadShards env keyspace sources false with
  | error e => simp [h1] at hq
  | ok p =>
    rcases p with ⟨sis, sp⟩
    simp only [h1] at hq
    cases h2 : loadShards env keyspace targets true with
    | error e => simp [h2] at hq
    | ok p2 =>
      rcases p2 with ⟨tis, tp⟩
      simp only [h2] at hq
      cases h3 : env.validateForReshard sis tis with
      | error e => simp [h3] at hq
      | ok u =>
        cases u
        simp only [h3] at hq
        cases h4 : validateTargets
            { keyspace := keyspace, workflow := workflow, sourceShards := sis,
              sourcePrimaries := sp, targetShards := tis, targetPrimaries := tp,
              vschema := { Tables := [] }, refStreams := [], cell := cell,
              tabletTypes := tabletTypes, stopAfterCopy := false, onDDL := "",
              deferSecondaryKeys := false } env.catalog with
        | error e =>
          simp only [h4] at hq
          exact validateTargetsQueries_select _ q (by simpa using hq)
        | ok u =>
          cases u
          simp only [h4] at hq
          cases h5 : env.getVSchema keyspace with
          | none =>
            simp only [h5] at hq
            exact validateTargetsQueries_select _ q (by simpa using hq)
          | some vschema =>
            simp only [h5] at hq
            cases h6 : (readRefStreams env.internal vschema env.catalog sp sis).2 with
            | error e =>
              simp only [h6] at hq
              rcases List.mem_append.mp (by simpa using hq) with hq' | hq'
              · exact validateTargetsQueries_select _ q hq'
              · exact readRefStreamsQueries_select _ q hq'
            | ok u =>
              cases u
              simp only [h6] at hq
              rcases List.mem_append.mp (by simpa using hq) with hq' | hq'
              · exact validateTargetsQueries_select _ q hq'
              · exact readRefStreamsQueries_select _ q hq'

/-- Witness for C9: the probe of the first target appears in the trace and is
a select. -/
theorem buildResharder_queries_are_selects_witness :
    isSelectQuery (probeQuery "dbt1") = true :=
  buildResharder_queries_are_selects cEnv "ks" "wf" ["-"] ["-80", "80-"]
    "zone1" "primary" (probeQuery "dbt1") (by decide)

/-- Claim C10 — Duplicate refKey asymmetry: if a non-defining source reports
the same reference `refKey` in two rows, its turn fails with a mismatch
error — and `readRefStreams` fails — even when the sources' reference-stream
key sets are equal as sets, because the first occurrence deletes the key from
the comparison set and the second then finds it absent; whereas the defining
source tolerates duplicate `refKey`s (its turn never fails on clean rows,
the Go-map insert simply overwriting the entry). -/
theorem readRefStreams_duplicate_refKey_asymmetry (i : String → Bool) (v : VSchema)
    (catalog : String → List VRow) (primaries : List (String × TabletInfo))
    (s0 s1 : ShardInfo) (rest : List ShardInfo) (rows0 rows1 : List VRow)
    (h0 : sourceRows catalog ((findTablet primaries s0.ShardName).DbName) = rows0)
    (h1 : sourceRows catalog ((findTablet primaries s1.ShardName).DbName) = rows1)
    (hclean0 : rowsClean i v rows0 = true)
    (hnd0 : (refKeys i v rows0).Nodup)
    (hclean1 : rowsClean i v rows1 = true)
    (hdup : ¬ (refKeys i v rows1).Nodup)
    (hset : ∀ k, k ∈ refKeys i v rows1 ↔ k ∈ refKeys i v rows0) :
    (∃ e, (processSource i v s1 rows1 (some (refEntries i v rows0))).2 = some e ∧
      strHasPrefix mismatchPrefix e = true)
    ∧ (∃ err, (readRefStreams i v catalog primaries (s0 :: s1 :: rest)).2 =
        Except.error err)
    ∧ (∀ rows, rowsClean i v rows = true → (processSource i v s0 rows none).2 = none)
    ∧ (∀ (m : RefMap) (k : String) (v1 v2 : RefStream),
        mapInsert (mapInsert m k v1) k v2 = mapInsert m k v2) := by
  have hm : processSource i v s0 rows0 none = (refEntries i v rows0, none) := by
    rw [processSource_none_of_clean i v s0 rows0 hclean0,
      refEntries_insertAll_of_nodup i v rows0 hnd0]
  have hkeys : ((refEntries i v rows0).map Prod.fst).Nodup := by
    rw [refEntries_keys]
    exact hnd0
  have hne : (processSource i v s1 rows1 (some (refEntries i v rows0))).2 ≠ none := by
    intro hcontra
    exact hdup ((processSource_validate_iff i v s1 rows1 (refEntries i v rows0)
      hkeys hclean1).mp hcontra).1
  obtain ⟨e, he⟩ : ∃ e,
      (processSource i v s1 rows1 (some (refEntries i v rows0))).2 = some e := by
    cases hc : (processSource i v s1 rows1 (some (refEntries i v rows0))).2 with
    | none => exact absurd hc hne
    | some e => exact ⟨e, rfl⟩
  refine ⟨⟨e, he, processSource_validate_mismatch i v s1 rows1
      (refEntries i v rows0) hclean1 e he⟩,
    readRefStreams_second_source_error i v catalog primaries s0 s1 rest
      rows0 rows1 (refEntries i v rows0) e h0 h1 hm he, ?_, mapInsert_overwrite⟩
  intro rows hcl
  rw [processSource_none_of_clean i v s0 rows hcl]

/-- Witness for C10: source `d` reports the same reference stream twice. -/
theorem readRefStreams_duplicate_refKey_asymmetry_witness :
    ∃ err, (readRefStreams cInternal cVSchema cCatalog cPrims
      [cSrc, cSrcD]).2 = Except.error err :=
  (readRefStreams_duplicate_refKey_asymmetry cInternal cVSchema cCatalog cPrims
    cSrc cSrcD [] [cRowRef] [cRowRef, cRowRef]
    (by rfl) (by rfl) (by rfl) (by decide) (by rfl) (by decide)
    (by
      intro k
      have h1 : refKeys cInternal cVSchema [cRowRef, cRowRef] =
          [refKeyOf "wf1" cBlsRef, refKeyOf "wf1" cBlsRef] := rfl
      have h2 : refKeys cInternal cVSchema [cRowRef] = [refKeyOf "wf1" cBlsRef] := rfl
      rw [h1, h2]
      simp)).2.1
